import Mathlib

/-!
Verification development for the `State`/`StateTensor` data model of
`all/core/state.py` (autonomous-learning-library).

Tensors are modelled as a flat row-major data list together with a shape;
torch's `view`, integer indexing, boolean-mask indexing, `stack`,
broadcasting multiplication and `unsqueeze(-1)` are embedded as
executable functions.  Python dicts are association lists with
first-match lookup; fallible Python operations return `Except String`
(the message standing for the exception class).  Element values are
integers: every arithmetic fact proved here involves only exact values
(0/1 masks, elementwise products), where float and integer arithmetic
agree.
-/

abbrev Scalar := Int

structure Tensor where
  shape : List Nat
  data : List Scalar
deriving DecidableEq

def Tensor.wf (t : Tensor) : Bool := t.data.length == t.shape.prod

/-- torch `t.view(s)`: succeeds iff the element count is preserved. -/
def Tensor.view (t : Tensor) (s : List Nat) : Option Tensor :=
  if s.prod = t.shape.prod then some ⟨s, t.data⟩ else none

/-- torch `t[i]` for an integer index into the leading dimension. -/
def Tensor.index (t : Tensor) (i : Nat) : Option Tensor :=
  match t.shape with
  | [] => none
  | d :: ds => if i < d then some ⟨ds, (t.data.drop (i * ds.prod)).take ds.prod⟩ else none

/-- torch `t.unsqueeze(-1)`. -/
def Tensor.unsqueezeLast (t : Tensor) : Tensor := ⟨t.shape ++ [1], t.data⟩

/-- torch `1 - t` elementwise (also models `1 - t.float()` on a 0/1 tensor). -/
def Tensor.oneMinus (t : Tensor) : Tensor := ⟨t.shape, t.data.map (fun a => 1 - a)⟩

/-- torch `t * c` for a Python scalar `c`. -/
def Tensor.scale (t : Tensor) (c : Scalar) : Tensor := ⟨t.shape, t.data.map (fun a => a * c)⟩

def bcastDim (a b : Nat) : Option Nat :=
  if a = b then some a else if a = 1 then some b else if b = 1 then some a else none

def bcastRev : List Nat → List Nat → Option (List Nat)
  | [], s => some s
  | s, [] => some s
  | a :: as, b :: bs =>
    match bcastDim a b, bcastRev as bs with
    | some d, some r => some (d :: r)
    | _, _ => none

/-- numpy/torch broadcast of two shapes (right-aligned). -/
def bcastShape (s1 s2 : List Nat) : Option (List Nat) :=
  (bcastRev s1.reverse s2.reverse).map List.reverse

/-- row-major flat offset of a multi-index. -/
def flatIndex : List Nat → List Nat → Nat
  | _ :: ds, i :: is => i * ds.prod + flatIndex ds is
  | _, _ => 0

/-- inverse of `flatIndex` on in-range offsets. -/
def unflatten : List Nat → Nat → List Nat
  | [], _ => []
  | _ :: ds, n => (n / ds.prod) :: unflatten ds (n % ds.prod)

def validIdx : List Nat → List Nat → Bool
  | [], [] => true
  | d :: ds, i :: is => decide (i < d) && validIdx ds is
  | _, _ => false

def getI (l : List Scalar) (n : Nat) : Scalar := l.getD n 0

/-- element of `t` addressed by a multi-index of the broadcast result
shape `rshape`, following numpy broadcasting (missing leading dims and
size-1 dims repeat). -/
def bcastRead (t : Tensor) (rshape idx : List Nat) : Scalar :=
  let idx1 := idx.drop (rshape.length - t.shape.length)
  let idx2 := (t.shape.zip idx1).map (fun p => if p.1 = 1 then 0 else p.2)
  getI t.data (flatIndex t.shape idx2)

/-- element access by multi-index. -/
def Tensor.at_ (t : Tensor) (idx : List Nat) : Scalar := getI t.data (flatIndex t.shape idx)

/-- torch `a * b` with numpy broadcasting; `none` models the RuntimeError
on incompatible shapes. -/
def Tensor.mul (a b : Tensor) : Option Tensor :=
  match bcastShape a.shape b.shape with
  | none => none
  | some s => some ⟨s, (List.range s.prod).map (fun n =>
      bcastRead a s (unflatten s n) * bcastRead b s (unflatten s n))⟩

def concatAll : List (List Scalar) → List Scalar
  | [] => []
  | l :: ls => l ++ concatAll ls

/-- torch `torch.stack(ts)`: all inputs must share one shape. -/
def Tensor.stack (ts : List Tensor) : Option Tensor :=
  match ts with
  | [] => none
  | t0 :: _ =>
    if ts.all (fun t => t.shape == t0.shape) then
      some ⟨ts.length :: t0.shape, concatAll (ts.map Tensor.data)⟩
    else none

def selectChunks : List Scalar → Nat → List Scalar → List Scalar
  | _, _, [] => []
  | data, m, b :: bs => (if b ≠ 0 then data.take m else []) ++ selectChunks (data.drop m) m bs

/-- torch boolean-mask indexing `t[m]`: `m`'s shape must equal the leading
dims of `t`; selected slots are packed into a new leading dimension. -/
def Tensor.maskGather (t : Tensor) (m : Tensor) : Option Tensor :=
  if t.shape.take m.shape.length = m.shape then
    let rest := t.shape.drop m.shape.length
    some ⟨m.data.countP (fun b => b != 0) :: rest, selectChunks t.data rest.prod m.data⟩
  else none

inductive PyVal where
  | tensor (t : Tensor)
  | num (x : Scalar)
  | boolv (b : Bool)
  | pynone
  | obj (n : Nat)
deriving DecidableEq

abbrev PyDict := List (String × PyVal)

def dictLookup : PyDict → String → Option PyVal
  | [], _ => none
  | (k1, v) :: rest, k => if k = k1 then some v else dictLookup rest k

def dictContains (d : PyDict) (k : String) : Bool := (dictLookup d k).isSome

def dictInsert : PyDict → String → PyVal → PyDict
  | [], k, v => [(k, v)]
  | (k1, v1) :: rest, k, v => if k = k1 then (k, v) :: rest else (k1, v1) :: dictInsert rest k v

def removeKey : PyDict → String → PyDict
  | [], _ => []
  | (k1, v1) :: rest, k => if k1 = k then removeKey rest k else (k1, v1) :: removeKey rest k

def nodupKeys (d : PyDict) : Prop := (d.map Prod.fst).Nodup

instance (d : PyDict) : Decidable (nodupKeys d) := by
  unfold nodupKeys; infer_instance

/-- a Python loop that rebuilds a dict, raising at the first failing entry. -/
def mapValsE (f : PyVal → Except String PyVal) : PyDict → Except String PyDict
  | [] => .ok []
  | (k, v) :: rest =>
    match f v with
    | .error e => .error e
    | .ok v1 =>
      match mapValsE f rest with
      | .error e => .error e
      | .ok r => .ok ((k, v1) :: r)

/-- a Python loop that rebuilds a dict inside `try ... except: pass`,
dropping the entries whose computation raises. -/
def filterMapVals (f : String → PyVal → Option PyVal) : PyDict → PyDict
  | [] => []
  | (k, v) :: rest =>
    match f k v with
    | some v1 => (k, v1) :: filterMapVals f rest
    | none => filterMapVals f rest

/-- Python `1. - v` (used by `State.__init__` for the mask default). -/
def pyOneMinus : PyVal → Option PyVal
  | .boolv b => some (.num (1 - (if b then (1 : Scalar) else 0)))
  | .num x => some (.num (1 - x))
  | .tensor t => some (.tensor t.oneMinus)
  | _ => none

/-- Python `1. - v.float()` (used by `StateTensor.__init__`); only a
tensor has `.float()`. -/
def pyOneMinusFloat : PyVal → Option PyVal
  | .tensor t => some (.tensor t.oneMinus)
  | _ => none

/-- the `x` argument of the constructors: a dict, or a bare value that is
wrapped as `{'observation': x}`. -/
inductive InitArg where
  | dict (d : PyDict)
  | val (v : PyVal)

/-- the dict after the non-dict wrap and the `**kwargs` merge at the top
of both constructors. -/
def initBase (x : InitArg) (kwargs : PyDict) : PyDict :=
  let x0 := match x with
    | .dict d => d
    | .val v => [("observation", v)]
  kwargs.foldl (fun d kv => dictInsert d kv.1 kv.2) x0

structure State where
  data : PyDict
  device : String
deriving DecidableEq

structure StateTensor where
  data : PyDict
  shape : List Nat
  device : String
deriving DecidableEq

/-- `State.__init__` of state.py (lines 7-22). -/
def State.init (x : InitArg) (device : String) (kwargs : PyDict) : Except String State :=
  let d := initBase x kwargs
  if dictContains d "observation" = false then .error "State must contain an observation"
  else
    let d1 := if dictContains d "reward" then d else dictInsert d "reward" (.num 0)
    let d2 := if dictContains d1 "done" then d1 else dictInsert d1 "done" (.boolv false)
    if dictContains d2 "mask" then .ok ⟨d2, device⟩
    else
      match dictLookup d2 "done" with
      | some dv =>
        match pyOneMinus dv with
        | some m => .ok ⟨dictInsert d2 "mask" m, device⟩
        | none => .error "TypeError"
      | none => .error "KeyError"

/-- `StateTensor.__init__` of state.py (lines 109-123): the defaults are
`torch.zeros(shape)` for `reward`, an all-`False` tensor of the batch
shape for `done`, and `1. - done.float()` for `mask`; the final
`super().__init__` call re-checks nothing new since all core keys are
present by then. -/
def StateTensor.init (x : InitArg) (shape : List Nat) (device : String) (kwargs : PyDict) :
    Except String StateTensor :=
  let d := initBase x kwargs
  if dictContains d "observation" = false then .error "StateTensor must contain an observation"
  else
    let d1 := if dictContains d "reward" then d
      else dictInsert d "reward" (.tensor ⟨shape, List.replicate shape.prod 0⟩)
    let d2 := if dictContains d1 "done" then d1
      else dictInsert d1 "done" (.tensor ⟨shape, List.replicate shape.prod 0⟩)
    if dictContains d2 "mask" then .ok ⟨d2, shape, device⟩
    else
      match dictLookup d2 "done" with
      | some dv =>
        match pyOneMinusFloat dv with
        | some m => .ok ⟨dictInsert d2 "mask" m, shape, device⟩
        | none => .error "AttributeError"
      | none => .error "KeyError"

/-- `State.update` (lines 52-58): copy every entry except `key`, set
`key` to `value`, and run the result through the constructor. -/
def State.update (s : State) (key : String) (value : PyVal) : Except String State :=
  State.init (.dict (dictInsert (removeKey s.data key) key value)) s.device []

/-- `StateTensor.update` (lines 125-131). -/
def StateTensor.update (s : StateTensor) (key : String) (value : PyVal) :
    Except String StateTensor :=
  StateTensor.init (.dict (dictInsert (removeKey s.data key) key value)) s.shape s.device []

/-- `dict.__getitem__` as inherited by `State`: a missing key raises
`KeyError`. -/
def State.getItem (s : State) (k : String) : Except String PyVal :=
  match dictLookup s.data k with
  | some v => .ok v
  | none => .error "KeyError"

/-- the string branch of `StateTensor.__getitem__` (lines 190-194): a
missing key returns Python `None` instead of raising. -/
def StateTensor.getStr (s : StateTensor) (k : String) : PyVal :=
  match dictLookup s.data k with
  | some v => v
  | none => .pynone

/-- `State.apply_mask` (lines 49-50): `tensor * self.mask`, where the
mask of a plain `State` is normally a Python scalar. -/
def State.apply_mask (s : State) (t : Tensor) : Except String Tensor :=
  match dictLookup s.data "mask" with
  | some (.num x) => .ok (t.scale x)
  | some (.boolv b) => .ok (t.scale (if b then 1 else 0))
  | some (.tensor m) =>
    match t.mul m with
    | some r => .ok r
    | none => .error "RuntimeError"
  | some _ => .error "TypeError"
  | none => .error "KeyError"

/-- `StateTensor.apply_mask` (lines 140-141): `tensor * self.mask.unsqueeze(-1)`. -/
def StateTensor.apply_mask (s : StateTensor) (t : Tensor) : Except String Tensor :=
  match dictLookup s.data "mask" with
  | some (.tensor m) =>
    match t.mul m.unsqueezeLast with
    | some r => .ok r
    | none => .error "RuntimeError"
  | _ => .error "AttributeError"

/-- `v[i]` on a dict value during integer indexing: only tensors support
it, and the index must be in range of the leading dimension. -/
def pyIndexInt (i : Nat) (v : PyVal) : Except String PyVal :=
  match v with
  | .tensor t =>
    match t.index i with
    | some t1 => .ok (.tensor t1)
    | none => .error "IndexError"
  | _ => .error "TypeError"

/-- the integer branch of `StateTensor.__getitem__` (lines 178-179):
`State({k: v[key] for ...}, device=self.device)`. -/
def StateTensor.getInt (s : StateTensor) (i : Nat) : Except String State :=
  match mapValsE (pyIndexInt i) s.data with
  | .error e => .error e
  | .ok d => State.init (.dict d) s.device []

/-- `v[key]` on a dict value for a (boolean) tensor index; `none` models
any exception, which the surrounding loop swallows. -/
def pyGetIdx (key : Tensor) (v : PyVal) : Option PyVal :=
  match v with
  | .tensor t => (t.maskGather key).map .tensor
  | _ => none

/-- the tensor branch of `StateTensor.__getitem__` (lines 180-189):
`self['mask'][key].shape` is computed first (so a failure there raises),
then each field is gathered inside `try ... except: pass`, and the
surviving fields are passed to the constructor. -/
def StateTensor.getTensor (s : StateTensor) (key : Tensor) : Except String StateTensor :=
  match StateTensor.getStr s "mask" with
  | .tensor m =>
    match m.maskGather key with
    | some mg =>
      StateTensor.init (.dict (filterMapVals (fun _ v => pyGetIdx key v) s.data)) mg.shape
        s.device []
    | none => .error "IndexError"
  | _ => .error "TypeError"

/-- `v.view((newLead, *v.shape[dims:]))` on a dict value, as used by
`flatten` and `view`; a non-tensor has no `.view`/`.shape`. -/
def pyViewTrailing (dims : Nat) (newLead : List Nat) (v : PyVal) : Except String PyVal :=
  match v with
  | .tensor t =>
    match t.view (newLead ++ t.shape.drop dims) with
    | some t1 => .ok (.tensor t1)
    | none => .error "RuntimeError"
  | _ => .error "AttributeError"

/-- `StateTensor.flatten` (lines 143-149). -/
def StateTensor.flatten (s : StateTensor) : Except String StateTensor :=
  match mapValsE (pyViewTrailing s.shape.length [s.shape.prod]) s.data with
  | .error e => .error e
  | .ok d => StateTensor.init (.dict d) [s.shape.prod] s.device []

/-- `StateTensor.view` (lines 151-156). -/
def StateTensor.view (s : StateTensor) (shape : List Nat) : Except String StateTensor :=
  match mapValsE (pyViewTrailing s.shape.length shape) s.data with
  | .error e => .error e
  | .ok d => StateTensor.init (.dict d) shape s.device []

/-- `torch.tensor(list_of_scalars)` as used by `from_list` for
non-tensor fields: succeeds on numbers and booleans. -/
def tensorOfVals (vs : List PyVal) : Option Tensor :=
  match vs.mapM (fun v => match v with
    | .num x => some x
    | .boolv b => some (if b then (1 : Scalar) else 0)
    | _ => none) with
  | some xs => some ⟨[vs.length], xs⟩
  | none => none

/-- `torch.stack([state[key] for state in list])`: all values must be
tensors of one shape. -/
def stackVals (vs : List PyVal) : Option Tensor :=
  match vs.mapM (fun v => match v with
    | .tensor t => some t
    | _ => none) with
  | some ts => Tensor.stack ts
  | none => none

/-- one key of the `from_list` loop body: collect `state[key]` over the
list (a missing key raises `KeyError`, swallowed by the caller) and
combine by `torch.stack` when the first value is a tensor, else by
`torch.tensor`; `none` models any swallowed exception. -/
def combineKey (l : List State) (v0 : PyVal) (k : String) : Option Tensor :=
  match l.mapM (fun s => dictLookup s.data k) with
  | none => none
  | some vs =>
    match v0 with
    | .tensor _ => stackVals vs
    | _ => tensorOfVals vs

/-- `State.from_list` (lines 24-38): a `State` has `shape == ()`, so the
result shape is `(len(l),)`; each key of the first state is combined
best-effort and failures are silently dropped. -/
def State.from_list (l : List State) : Except String StateTensor :=
  match l with
  | [] => .error "IndexError"
  | s0 :: _ =>
    StateTensor.init
      (.dict (filterMapVals (fun k v => (combineKey l v k).map .tensor) s0.data))
      [l.length] s0.device []

def coreKeys : List String := ["observation", "reward", "done", "mask"]

def tensorFieldsWithLead (S : List Nat) (d : PyDict) : Bool :=
  d.all fun p => match p.2 with
    | .tensor t => t.shape.take S.length == S
    | _ => false

def hasCoreKeys (d : PyDict) : Bool :=
  dictContains d "observation" && dictContains d "reward" &&
    dictContains d "done" && dictContains d "mask"

/-- the mask-defaulting tail of `State.__init__`. -/
def stateMaskStage (d2 : PyDict) (device : String) : Except String State :=
  if dictContains d2 "mask" then .ok ⟨d2, device⟩
  else
    match dictLookup d2 "done" with
    | some dv =>
      match pyOneMinus dv with
      | some m => .ok ⟨dictInsert d2 "mask" m, device⟩
      | none => .error "TypeError"
    | none => .error "KeyError"

/-- the done-defaulting stage of `State.__init__`. -/
def stateDoneStage (d1 : PyDict) (device : String) : Except String State :=
  stateMaskStage (if dictContains d1 "done" then d1 else dictInsert d1 "done" (.boolv false))
    device

/-- the part of `State.__init__` after the observation check. -/
def stateAfterObs (d : PyDict) (device : String) : Except String State :=
  stateDoneStage (if dictContains d "reward" then d else dictInsert d "reward" (.num 0)) device

/-- the mask-defaulting tail of `StateTensor.__init__`. -/
def stateTensorMaskStage (d2 : PyDict) (shape : List Nat) (device : String) :
    Except String StateTensor :=
  if dictContains d2 "mask" then .ok ⟨d2, shape, device⟩
  else
    match dictLookup d2 "done" with
    | some dv =>
      match pyOneMinusFloat dv with
      | some m => .ok ⟨dictInsert d2 "mask" m, shape, device⟩
      | none => .error "AttributeError"
    | none => .error "KeyError"

/-- the done-defaulting stage of `StateTensor.__init__`. -/
def stateTensorDoneStage (d1 : PyDict) (shape : List Nat) (device : String) :
    Except String StateTensor :=
  stateTensorMaskStage
    (if dictContains d1 "done" then d1
     else dictInsert d1 "done" (.tensor ⟨shape, List.replicate shape.prod 0⟩)) shape device

/-- the part of `StateTensor.__init__` after the observation check. -/
def stateTensorAfterObs (d : PyDict) (shape : List Nat) (device : String) :
    Except String StateTensor :=
  stateTensorDoneStage
    (if dictContains d "reward" then d
     else dictInsert d "reward" (.tensor ⟨shape, List.replicate shape.prod 0⟩)) shape device

/-! ### Dictionary lemmas -/

lemma dictLookup_dictInsert (d : PyDict) (k j : String) (v : PyVal) :
    dictLookup (dictInsert d k v) j = if j = k then some v else dictLookup d j := by
  induction d with
  | nil => simp [dictInsert, dictLookup]
  | cons p rest ih =>
    obtain ⟨k1, v1⟩ := p
    simp only [dictInsert]
    by_cases h1 : k = k1
    · subst h1
      simp only [if_pos rfl, dictLookup]
      by_cases h2 : j = k <;> simp [h2]
    · simp only [if_neg h1, dictLookup, ih]
      by_cases h2 : j = k1
      · have h3 : ¬ j = k := fun h => by subst h; exact h1 h2
        have h4 : ¬ k1 = k := fun h => h1 h.symm
        simp [h2, h3, h4]
      · simp [h2]

lemma dictContains_dictInsert_self (d : PyDict) (k : String) (v : PyVal) :
    dictContains (dictInsert d k v) k = true := by
  simp [dictContains, dictLookup_dictInsert]

lemma dictContains_dictInsert_ne (d : PyDict) (k j : String) (v : PyVal) (h : j ≠ k) :
    dictContains (dictInsert d k v) j = dictContains d j := by
  simp [dictContains, dictLookup_dictInsert, h]

lemma dictLookup_removeKey_ne (d : PyDict) (k j : String) (h : j ≠ k) :
    dictLookup (removeKey d k) j = dictLookup d j := by
  induction d with
  | nil => simp [removeKey]
  | cons p rest ih =>
    obtain ⟨k1, v1⟩ := p
    simp only [removeKey]
    by_cases h1 : k1 = k
    · subst h1
      simp only [if_pos rfl, dictLookup, if_neg h]
      exact ih
    · simp [dictLookup, ih, h1]

lemma dictLookup_removeKey_self (d : PyDict) (k : String) :
    dictLookup (removeKey d k) k = none := by
  induction d with
  | nil => simp [removeKey, dictLookup]
  | cons p rest ih =>
    obtain ⟨k1, v1⟩ := p
    simp only [removeKey]
    by_cases h1 : k1 = k
    · simp [h1, ih]
    · have h2 : ¬ k = k1 := fun h => h1 h.symm
      simp [h1, dictLookup, h2, ih]

lemma dictContains_removeKey_ne (d : PyDict) (k j : String) (h : j ≠ k) :
    dictContains (removeKey d k) j = dictContains d j := by
  simp [dictContains, dictLookup_removeKey_ne d k j h]

lemma dictLookup_mem (d : PyDict) (k : String) (v : PyVal) (h : dictLookup d k = some v) :
    (k, v) ∈ d := by
  induction d with
  | nil => simp [dictLookup] at h
  | cons p rest ih =>
    obtain ⟨k1, v1⟩ := p
    simp only [dictLookup] at h
    by_cases h1 : k = k1
    · subst h1
      simp only [if_pos rfl] at h
      cases h
      exact List.mem_cons_self _ _
    · simp only [if_neg h1] at h
      exact List.mem_cons_of_mem _ (ih h)

lemma dictLookup_eq_none_of_not_mem (d : PyDict) (k : String)
    (h : k ∉ d.map Prod.fst) : dictLookup d k = none := by
  induction d with
  | nil => simp [dictLookup]
  | cons p rest ih =>
    obtain ⟨k1, v1⟩ := p
    simp only [List.map_cons, List.mem_cons] at h
    push_neg at h
    simp only [dictLookup, if_neg h.1]
    exact ih h.2

lemma dictContains_iff (d : PyDict) (k : String) :
    dictContains d k = true ↔ ∃ v, dictLookup d k = some v := by
  simp [dictContains, Option.isSome_iff_exists]

/-! ### mapValsE lemmas -/

lemma mapValsE_ok_of_all (f : PyVal → Except String PyVal) (d : PyDict)
    (h : ∀ p ∈ d, ∃ v1, f p.2 = .ok v1) : ∃ d1, mapValsE f d = .ok d1 := by
  induction d with
  | nil => exact ⟨[], rfl⟩
  | cons p rest ih =>
    obtain ⟨k, v⟩ := p
    obtain ⟨v1, hv1⟩ := h (k, v) (List.mem_cons_self _ _)
    obtain ⟨r, hr⟩ := ih (fun q hq => h q (List.mem_cons_of_mem _ hq))
    exact ⟨(k, v1) :: r, by simp [mapValsE, hv1, hr]⟩

lemma mapValsE_lookup_some (f : PyVal → Except String PyVal) (d d1 : PyDict)
    (hd : mapValsE f d = .ok d1) (k : String) (v : PyVal)
    (hk : dictLookup d k = some v) :
    ∃ v1, f v = .ok v1 ∧ dictLookup d1 k = some v1 := by
  induction d generalizing d1 with
  | nil => simp [dictLookup] at hk
  | cons p rest ih =>
    obtain ⟨k1, w⟩ := p
    simp only [mapValsE] at hd
    cases hfw : f w with
    | error e => rw [hfw] at hd; cases hd
    | ok w1 =>
      rw [hfw] at hd
      cases hrest : mapValsE f rest with
      | error e => rw [hrest] at hd; cases hd
      | ok r =>
        rw [hrest] at hd
        cases hd
        simp only [dictLookup] at hk ⊢
        by_cases h1 : k = k1
        · subst h1
          simp only [if_pos rfl] at hk ⊢
          cases hk
          exact ⟨w1, hfw, rfl⟩
        · simp only [if_neg h1] at hk ⊢
          exact ih r hrest hk

lemma mapValsE_lookup_none (f : PyVal → Except String PyVal) (d d1 : PyDict)
    (hd : mapValsE f d = .ok d1) (k : String)
    (hk : dictLookup d k = none) : dictLookup d1 k = none := by
  induction d generalizing d1 with
  | nil => cases hd; exact hk
  | cons p rest ih =>
    obtain ⟨k1, w⟩ := p
    simp only [mapValsE] at hd
    cases hfw : f w with
    | error e => rw [hfw] at hd; cases hd
    | ok w1 =>
      rw [hfw] at hd
      cases hrest : mapValsE f rest with
      | error e => rw [hrest] at hd; cases hd
      | ok r =>
        rw [hrest] at hd
        cases hd
        simp only [dictLookup] at hk ⊢
        by_cases h1 : k = k1
        · simp [if_pos h1] at hk
        · simp only [if_neg h1] at hk ⊢
          exact ih r hrest hk

lemma mapValsE_mem (f : PyVal → Except String PyVal) (d d1 : PyDict)
    (hd : mapValsE f d = .ok d1) (q : String × PyVal) (hq : q ∈ d1) :
    ∃ p ∈ d, p.1 = q.1 ∧ f p.2 = .ok q.2 := by
  induction d generalizing d1 with
  | nil => cases hd; simp at hq
  | cons p rest ih =>
    obtain ⟨k1, w⟩ := p
    simp only [mapValsE] at hd
    cases hfw : f w with
    | error e => rw [hfw] at hd; cases hd
    | ok w1 =>
      rw [hfw] at hd
      cases hrest : mapValsE f rest with
      | error e => rw [hrest] at hd; cases hd
      | ok r =>
        rw [hrest] at hd
        cases hd
        rcases List.mem_cons.mp hq with h | h
        · subst h
          exact ⟨(k1, w), List.mem_cons_self _ _, rfl, hfw⟩
        · obtain ⟨p0, hp0, h1, h2⟩ := ih r hrest h
          exact ⟨p0, List.mem_cons_of_mem _ hp0, h1, h2⟩

lemma mapValsE_isError (f : PyVal → Except String PyVal) (d : PyDict)
    (k : String) (v : PyVal) (hp : (k, v) ∈ d) (hf : ∀ v1, f v ≠ .ok v1) :
    ∃ e, mapValsE f d = .error e := by
  induction d with
  | nil => simp at hp
  | cons q rest ih =>
    obtain ⟨k1, w⟩ := q
    rcases List.mem_cons.mp hp with h | h
    · obtain ⟨h1, h2⟩ := Prod.mk.injEq .. ▸ h
      subst h2
      cases hfw : f v with
      | error e => exact ⟨e, by simp [mapValsE, hfw]⟩
      | ok v1 => exact absurd hfw (hf v1)
    · cases hfw : f w with
      | error e => exact ⟨e, by simp [mapValsE, hfw]⟩
      | ok w1 =>
        obtain ⟨e, he⟩ := ih h
        exact ⟨e, by simp [mapValsE, hfw, he]⟩

/-! ### filterMapVals lemmas -/

lemma filterMapVals_lookup_some (f : String → PyVal → Option PyVal) (d : PyDict)
    (k : String) (v v1 : PyVal) (hk : dictLookup d k = some v) (hf : f k v = some v1) :
    dictLookup (filterMapVals f d) k = some v1 := by
  induction d with
  | nil => simp [dictLookup] at hk
  | cons p rest ih =>
    obtain ⟨k1, w⟩ := p
    simp only [dictLookup] at hk
    by_cases h1 : k = k1
    · subst h1
      simp only [if_pos rfl] at hk
      cases hk
      simp [filterMapVals, hf, dictLookup]
    · simp only [if_neg h1] at hk
      simp only [filterMapVals]
      cases hfw : f k1 w with
      | some w1 => simp [dictLookup, if_neg h1, ih hk]
      | none => exact ih hk

lemma filterMapVals_lookup_none (f : String → PyVal → Option PyVal) (d : PyDict)
    (k : String) (hk : dictLookup d k = none) :
    dictLookup (filterMapVals f d) k = none := by
  induction d with
  | nil => simp [filterMapVals, dictLookup]
  | cons p rest ih =>
    obtain ⟨k1, w⟩ := p
    simp only [dictLookup] at hk
    by_cases h1 : k = k1
    · simp [if_pos h1] at hk
    · simp only [if_neg h1] at hk
      simp only [filterMapVals]
      cases hfw : f k1 w with
      | some w1 => simp [dictLookup, if_neg h1, ih hk]
      | none => exact ih hk

lemma filterMapVals_lookup_drop (f : String → PyVal → Option PyVal) (d : PyDict)
    (k : String) (v : PyVal) (hnd : nodupKeys d)
    (hk : dictLookup d k = some v) (hf : f k v = none) :
    dictLookup (filterMapVals f d) k = none := by
  induction d with
  | nil => simp [dictLookup] at hk
  | cons p rest ih =>
    obtain ⟨k1, w⟩ := p
    have hnd1 : nodupKeys rest := (List.nodup_cons.mp hnd).2
    simp only [dictLookup] at hk
    by_cases h1 : k = k1
    · subst h1
      simp only [if_pos rfl] at hk
      cases hk
      simp only [filterMapVals, hf]
      have hnm : k ∉ rest.map Prod.fst := (List.nodup_cons.mp hnd).1
      exact filterMapVals_lookup_none f rest k (dictLookup_eq_none_of_not_mem rest k hnm)
    · simp only [if_neg h1] at hk
      simp only [filterMapVals]
      cases hfw : f k1 w with
      | some w1 => simp [dictLookup, if_neg h1, ih hnd1 hk]
      | none => exact ih hnd1 hk

/-! ### Constructor lemmas -/

lemma initBase_dict_nil (d : PyDict) : initBase (.dict d) [] = d := rfl

lemma stateInit_complete (d : PyDict) (dev : String)
    (h1 : dictContains d "observation" = true) (h2 : dictContains d "reward" = true)
    (h3 : dictContains d "done" = true) (h4 : dictContains d "mask" = true) :
    State.init (.dict d) dev [] = .ok ⟨d, dev⟩ := by
  simp [State.init, initBase, h1, h2, h3, h4]

lemma stateTensorInit_complete (d : PyDict) (shape : List Nat) (dev : String)
    (h1 : dictContains d "observation" = true) (h2 : dictContains d "reward" = true)
    (h3 : dictContains d "done" = true) (h4 : dictContains d "mask" = true) :
    StateTensor.init (.dict d) shape dev [] = .ok ⟨d, shape, dev⟩ := by
  simp [StateTensor.init, initBase, h1, h2, h3, h4]

lemma updLookup (d : PyDict) (k j : String) (v : PyVal) :
    dictLookup (dictInsert (removeKey d k) k v) j =
      if j = k then some v else dictLookup d j := by
  rw [dictLookup_dictInsert]
  by_cases h : j = k
  · simp [h]
  · simp [h, dictLookup_removeKey_ne d k j h]

/-! ### Index and broadcasting lemmas -/

lemma getI_range_map (f : Nat → Scalar) (N n : Nat) (h : n < N) :
    getI ((List.range N).map f) n = f n := by
  simp [getI, List.getD_eq_getElem?_getD, List.getElem?_map, List.getElem?_range, h]

lemma getI_map_mul (l : List Scalar) (c : Scalar) (n : Nat) :
    getI (l.map (fun a => a * c)) n = getI l n * c := by
  by_cases h : n < l.length
  · simp [getI, List.getD_eq_getElem?_getD, List.getElem?_map,
      List.getElem?_eq_getElem h]
  · have h1 : l[n]? = none := List.getElem?_eq_none (le_of_not_lt h)
    have h2 : (l.map (fun a => a * c))[n]? = none := by
      refine List.getElem?_eq_none ?_
      simpa using le_of_not_lt h
    simp [getI, List.getD_eq_getElem?_getD, h1, h2]

lemma validIdx_length (sh idx : List Nat) (h : validIdx sh idx = true) :
    idx.length = sh.length := by
  induction sh generalizing idx with
  | nil => cases idx with
    | nil => rfl
    | cons i is => simp [validIdx] at h
  | cons d ds ih =>
    cases idx with
    | nil => simp [validIdx] at h
    | cons i is =>
      simp only [validIdx, Bool.and_eq_true] at h
      simp [ih is h.2]

lemma flatIndex_lt (sh idx : List Nat) (h : validIdx sh idx = true) :
    flatIndex sh idx < sh.prod := by
  induction sh generalizing idx with
  | nil => cases idx with
    | nil => simp [flatIndex]
    | cons i is => simp [validIdx] at h
  | cons d ds ih =>
    cases idx with
    | nil => simp [validIdx] at h
    | cons i is =>
      simp only [validIdx, Bool.and_eq_true, decide_eq_true_eq] at h
      have h2 := ih is h.2
      have hP : 0 < ds.prod := Nat.lt_of_le_of_lt (Nat.zero_le _) h2
      calc flatIndex (d :: ds) (i :: is) = i * ds.prod + flatIndex ds is := rfl
        _ < i * ds.prod + ds.prod := Nat.add_lt_add_left h2 _
        _ = (i + 1) * ds.prod := by ring
        _ ≤ d * ds.prod := Nat.mul_le_mul_right _ h.1
        _ = (d :: ds).prod := by simp

lemma unflatten_flatIndex (sh idx : List Nat) (h : validIdx sh idx = true) :
    unflatten sh (flatIndex sh idx) = idx := by
  induction sh generalizing idx with
  | nil => cases idx with
    | nil => rfl
    | cons i is => simp [validIdx] at h
  | cons d ds ih =>
    cases idx with
    | nil => simp [validIdx] at h
    | cons i is =>
      simp only [validIdx, Bool.and_eq_true, decide_eq_true_eq] at h
      have hm : flatIndex ds is < ds.prod := flatIndex_lt ds is h.2
      have hP : 0 < ds.prod := Nat.lt_of_le_of_lt (Nat.zero_le _) hm
      have hdiv : (i * ds.prod + flatIndex ds is) / ds.prod = i := by
        rw [Nat.mul_comm i ds.prod, Nat.mul_add_div hP, Nat.div_eq_of_lt hm]
        omega
      have hmod : (i * ds.prod + flatIndex ds is) % ds.prod = flatIndex ds is := by
        rw [Nat.mul_comm i ds.prod, Nat.mul_add_mod, Nat.mod_eq_of_lt hm]
      have hfi : flatIndex (d :: ds) (i :: is) = i * ds.prod + flatIndex ds is := rfl
      show (flatIndex (d :: ds) (i :: is) / ds.prod) ::
        unflatten ds (flatIndex (d :: ds) (i :: is) % ds.prod) = i :: is
      rw [hfi, hdiv, hmod, ih is h.2]

lemma selfIdx_map (sh idx : List Nat) (h : validIdx sh idx = true) :
    (sh.zip idx).map (fun p => if p.1 = 1 then 0 else p.2) = idx := by
  induction sh generalizing idx with
  | nil => cases idx with
    | nil => rfl
    | cons i is => simp [validIdx] at h
  | cons d ds ih =>
    cases idx with
    | nil => simp [validIdx] at h
    | cons i is =>
      simp only [validIdx, Bool.and_eq_true, decide_eq_true_eq] at h
      have h1 : (if d = 1 then 0 else i) = i := by
        split
        · omega
        · rfl
      simp [List.zip_cons_cons, h1, ih is h.2]

lemma bcastRead_self (t : Tensor) (sh idx : List Nat) (hsh : t.shape = sh)
    (h : validIdx sh idx = true) :
    bcastRead t sh idx = getI t.data (flatIndex sh idx) := by
  subst hsh
  unfold bcastRead
  simp only [Nat.sub_self, List.drop_zero]
  rw [selfIdx_map t.shape idx h]

lemma bcastDim_one_right (d : Nat) : bcastDim d 1 = some d := by
  by_cases h : d = 1 <;> simp [bcastDim, h]

lemma bcastRev_self (l : List Nat) : bcastRev l l = some l := by
  induction l with
  | nil => rfl
  | cons a as ih =>
    have : bcastDim a a = some a := by simp [bcastDim]
    simp [bcastRev, this, ih]

lemma bcastShape_trailOne (S : List Nat) (d : Nat) :
    bcastShape (S ++ [d]) (S ++ [1]) = some (S ++ [d]) := by
  unfold bcastShape
  rw [List.reverse_append, List.reverse_append]
  simp only [List.reverse_cons, List.reverse_nil, List.nil_append, List.singleton_append]
  simp [bcastRev, bcastDim_one_right, bcastRev_self]

lemma flatIndex_append (s1 s2 i1 i2 : List Nat) (h : i1.length = s1.length) :
    flatIndex (s1 ++ s2) (i1 ++ i2) = flatIndex s1 i1 * s2.prod + flatIndex s2 i2 := by
  induction s1 generalizing i1 with
  | nil =>
    have : i1 = [] := List.length_eq_zero.mp h
    subst this
    simp [flatIndex]
  | cons d ds ih =>
    cases i1 with
    | nil => simp at h
    | cons i is =>
      simp only [List.length_cons, Nat.succ.injEq] at h
      show i * (ds ++ s2).prod + flatIndex (ds ++ s2) (is ++ i2) = _
      rw [ih is h, List.prod_append]
      show i * (ds.prod * s2.prod) + (flatIndex ds is * s2.prod + flatIndex s2 i2) =
        (i * ds.prod + flatIndex ds is) * s2.prod + flatIndex s2 i2
      ring

lemma validIdx_append (s1 s2 i1 i2 : List Nat) (h1 : validIdx s1 i1 = true)
    (h2 : validIdx s2 i2 = true) : validIdx (s1 ++ s2) (i1 ++ i2) = true := by
  induction s1 generalizing i1 with
  | nil => cases i1 with
    | nil => simpa using h2
    | cons i is => simp [validIdx] at h1
  | cons d ds ih =>
    cases i1 with
    | nil => simp [validIdx] at h1
    | cons i is =>
      simp only [validIdx, Bool.and_eq_true] at h1
      simp only [List.cons_append, validIdx, Bool.and_eq_true]
      exact ⟨h1.1, ih is h1.2⟩

lemma bcastRead_trailOne (u : Tensor) (S : List Nat) (d j : Nat) (is : List Nat)
    (hu : u.shape = S ++ [1]) (hv : validIdx S is = true) :
    bcastRead u (S ++ [d]) (is ++ [j]) = getI u.data (flatIndex S is) := by
  have hlen : is.length = S.length := validIdx_length S is hv
  have hzip : (S ++ [1]).zip (is ++ [j]) = S.zip is ++ [((1 : Nat), j)] := by
    rw [List.zip_append hlen.symm]
    rfl
  have hone : ([((1 : Nat), j)]).map (fun p : Nat × Nat => if p.1 = 1 then 0 else p.2) = [0] := by
    simp
  unfold bcastRead
  rw [hu]
  have hll : (S ++ [d]).length - (S ++ [1]).length = 0 := by simp
  rw [hll, List.drop_zero]
  show getI u.data (flatIndex (S ++ [1])
    (((S ++ [1]).zip (is ++ [j])).map (fun p : Nat × Nat => if p.1 = 1 then 0 else p.2))) =
    getI u.data (flatIndex S is)
  rw [hzip, List.map_append, selfIdx_map S is hv, hone,
    flatIndex_append S [1] is [0] hlen]
  simp [flatIndex]

/-- correctness of `t * m.unsqueeze(-1)` when `t` has exactly one trailing
feature dimension beyond the mask shape. -/
lemma Tensor.mul_unsq (t m : Tensor) (S : List Nat) (d : Nat)
    (ht : t.shape = S ++ [d]) (hm : m.shape = S) :
    ∃ r, t.mul m.unsqueezeLast = some r ∧ r.shape = t.shape ∧
      ∀ is j, validIdx S is = true → j < d →
        r.at_ (is ++ [j]) = t.at_ (is ++ [j]) * m.at_ is := by
  have hush : (m.unsqueezeLast).shape = S ++ [1] := by
    simp [Tensor.unsqueezeLast, hm]
  have hsh : bcastShape t.shape (m.unsqueezeLast).shape = some (S ++ [d]) := by
    rw [ht, hush]
    exact bcastShape_trailOne S d
  refine ⟨⟨S ++ [d], (List.range (S ++ [d]).prod).map (fun n =>
      bcastRead t (S ++ [d]) (unflatten (S ++ [d]) n) *
      bcastRead m.unsqueezeLast (S ++ [d]) (unflatten (S ++ [d]) n))⟩, ?_, by rw [ht], ?_⟩
  · unfold Tensor.mul
    rw [hsh]
  · intro is j hv hj
    have hvfull : validIdx (S ++ [d]) (is ++ [j]) = true := by
      refine validIdx_append S [d] is [j] hv ?_
      simp [validIdx, hj]
    have hlt : flatIndex (S ++ [d]) (is ++ [j]) < (S ++ [d]).prod :=
      flatIndex_lt _ _ hvfull
    show getI _ (flatIndex (S ++ [d]) (is ++ [j])) = _
    rw [getI_range_map _ _ _ hlt, unflatten_flatIndex _ _ hvfull,
      bcastRead_self t (S ++ [d]) (is ++ [j]) ht hvfull,
      bcastRead_trailOne m.unsqueezeLast S d j is hush hv]
    show getI t.data _ * getI m.data _ = _
    rw [Tensor.at_, Tensor.at_, ht, hm]

/-! ### Field-shape side conditions, stated executably for witnesses -/

lemma tensorFieldsWithLead_spec (S : List Nat) (d : PyDict)
    (h : tensorFieldsWithLead S d = true) (p : String × PyVal) (hp : p ∈ d) :
    ∃ t : Tensor, p.2 = .tensor t ∧ t.shape = S ++ t.shape.drop S.length := by
  have h1 := (List.all_eq_true.mp h) p hp
  cases hv : p.2 with
  | tensor t =>
    rw [hv] at h1
    refine ⟨t, rfl, ?_⟩
    have h2 : t.shape.take S.length = S := by
      simpa using h1
    conv_lhs => rw [← List.take_append_drop S.length t.shape]
    rw [h2]
  | num x => rw [hv] at h1; simp at h1
  | boolv b => rw [hv] at h1; simp at h1
  | pynone => rw [hv] at h1; simp at h1
  | obj n => rw [hv] at h1; simp at h1

lemma hasCoreKeys_spec (d : PyDict) (h : hasCoreKeys d = true) :
    dictContains d "observation" = true ∧ dictContains d "reward" = true ∧
      dictContains d "done" = true ∧ dictContains d "mask" = true := by
  simp only [hasCoreKeys, Bool.and_eq_true] at h
  exact ⟨h.1.1.1, h.1.1.2, h.1.2, h.2⟩


/-! ### Full characterization of the constructors -/

lemma dictLookup_dictInsert_self (d : PyDict) (k : String) (v : PyVal) :
    dictLookup (dictInsert d k v) k = some v := by
  simp [dictLookup_dictInsert]

lemma dictLookup_dictInsert_of_ne (d : PyDict) (k j : String) (v : PyVal) (h : j ≠ k) :
    dictLookup (dictInsert d k v) j = dictLookup d j := by
  simp [dictLookup_dictInsert, h]

lemma stateInit_unfold (x : InitArg) (dev : String) (kwargs : PyDict) :
    State.init x dev kwargs =
      (if dictContains (initBase x kwargs) "observation" = false
       then .error "State must contain an observation"
       else stateAfterObs (initBase x kwargs) dev) := rfl

lemma stateMaskStage_spec (d2 : PyDict) (dev : String) (st : State)
    (hok : stateMaskStage d2 dev = .ok st) :
    st.device = dev ∧
    (∀ j, j ≠ "mask" → dictLookup st.data j = dictLookup d2 j) ∧
    (dictContains d2 "mask" = true → dictLookup st.data "mask" = dictLookup d2 "mask") ∧
    (dictContains d2 "mask" = false →
       ∃ dv m, dictLookup d2 "done" = some dv ∧ pyOneMinus dv = some m ∧
         dictLookup st.data "mask" = some m) := by
  unfold stateMaskStage at hok
  by_cases hmk : dictContains d2 "mask" = true
  · rw [if_pos hmk] at hok
    injection hok with h1
    subst h1
    refine ⟨rfl, fun j _ => rfl, fun _ => rfl, ?_⟩
    intro hc; rw [hmk] at hc; cases hc
  · rw [if_neg hmk] at hok
    cases hdv : dictLookup d2 "done" with
    | none => rw [hdv] at hok; cases hok
    | some dv =>
      rw [hdv] at hok
      dsimp only [] at hok
      cases hpm : pyOneMinus dv with
      | none => rw [hpm] at hok; cases hok
      | some m =>
        rw [hpm] at hok
        injection hok with h1
        subst h1
        refine ⟨rfl, fun j hj => dictLookup_dictInsert_of_ne d2 "mask" j m hj, ?_, ?_⟩
        · intro hc; exact absurd hc hmk
        · intro _
          exact ⟨dv, m, rfl, hpm, dictLookup_dictInsert_self d2 "mask" m⟩

lemma stateAfterObs_spec (d : PyDict) (dev : String) (st : State)
    (hok : stateAfterObs d dev = .ok st) :
    st.device = dev ∧
    (∀ j, j ≠ "reward" → j ≠ "done" → j ≠ "mask" →
       dictLookup st.data j = dictLookup d j) ∧
    dictLookup st.data "reward" =
      (if dictContains d "reward" then dictLookup d "reward" else some (.num 0)) ∧
    dictLookup st.data "done" =
      (if dictContains d "done" then dictLookup d "done" else some (.boolv false)) ∧
    (dictContains d "mask" = true → dictLookup st.data "mask" = dictLookup d "mask") ∧
    (dictContains d "mask" = false →
       ∃ dv m, dictLookup st.data "done" = some dv ∧ pyOneMinus dv = some m ∧
         dictLookup st.data "mask" = some m) := by
  unfold stateAfterObs stateDoneStage at hok
  by_cases hr : dictContains d "reward" = true
  · rw [if_pos hr] at hok
    by_cases hdn : dictContains d "done" = true
    · rw [if_pos hdn] at hok
      obtain ⟨hdev, hother, hmt, hmf⟩ := stateMaskStage_spec d dev st hok
      refine ⟨hdev, fun j _ _ h3 => hother j h3, ?_, ?_, hmt, ?_⟩
      · rw [hother "reward" (by decide), if_pos hr]
      · rw [hother "done" (by decide), if_pos hdn]
      · intro hc
        obtain ⟨dv, m, hdv, hpm, hm⟩ := hmf hc
        exact ⟨dv, m, by rw [hother "done" (by decide)]; exact hdv, hpm, hm⟩
    · rw [if_neg hdn] at hok
      obtain ⟨hdev, hother, hmt, hmf⟩ :=
        stateMaskStage_spec (dictInsert d "done" (.boolv false)) dev st hok
      have hD2ne : ∀ j : String, j ≠ "done" →
          dictLookup (dictInsert d "done" (.boolv false)) j = dictLookup d j :=
        fun j hj => dictLookup_dictInsert_of_ne d "done" j (.boolv false) hj
      have hD2mk : dictContains (dictInsert d "done" (.boolv false)) "mask" =
          dictContains d "mask" :=
        dictContains_dictInsert_ne d "done" "mask" (.boolv false) (by decide)
      refine ⟨hdev, ?_, ?_, ?_, ?_, ?_⟩
      · intro j _ h2 h3
        rw [hother j h3]
        exact hD2ne j h2
      · rw [hother "reward" (by decide), hD2ne "reward" (by decide), if_pos hr]
      · rw [hother "done" (by decide), dictLookup_dictInsert_self d "done" (.boolv false),
          if_neg (by simp [Bool.not_eq_true] at hdn ⊢; exact hdn)]
      · intro hc
        rw [hmt (hD2mk.trans hc), hD2ne "mask" (by decide)]
      · intro hc
        obtain ⟨dv, m, hdv, hpm, hm⟩ := hmf (hD2mk.trans hc)
        exact ⟨dv, m, by rw [hother "done" (by decide)]; exact hdv, hpm, hm⟩
  · rw [if_neg hr] at hok
    have hD1ne : ∀ j : String, j ≠ "reward" →
        dictLookup (dictInsert d "reward" (.num 0)) j = dictLookup d j :=
      fun j hj => dictLookup_dictInsert_of_ne d "reward" j (.num 0) hj
    have hD1dn : dictContains (dictInsert d "reward" (.num 0)) "done" =
        dictContains d "done" :=
      dictContains_dictInsert_ne d "reward" "done" (.num 0) (by decide)
    have hD1mk : dictContains (dictInsert d "reward" (.num 0)) "mask" =
        dictContains d "mask" :=
      dictContains_dictInsert_ne d "reward" "mask" (.num 0) (by decide)
    by_cases hdn : dictContains d "done" = true
    · rw [if_pos (hD1dn.trans hdn)] at hok
      obtain ⟨hdev, hother, hmt, hmf⟩ :=
        stateMaskStage_spec (dictInsert d "reward" (.num 0)) dev st hok
      refine ⟨hdev, ?_, ?_, ?_, ?_, ?_⟩
      · intro j h1 _ h3
        rw [hother j h3]
        exact hD1ne j h1
      · rw [hother "reward" (by decide), dictLookup_dictInsert_self d "reward" (.num 0),
          if_neg (by simp [Bool.not_eq_true] at hr ⊢; exact hr)]
      · rw [hother "done" (by decide), hD1ne "done" (by decide), if_pos hdn]
      · intro hc
        rw [hmt (hD1mk.trans hc), hD1ne "mask" (by decide)]
      · intro hc
        obtain ⟨dv, m, hdv, hpm, hm⟩ := hmf (hD1mk.trans hc)
        refine ⟨dv, m, ?_, hpm, hm⟩
        rw [hother "done" (by decide)]
        exact hdv
    · rw [if_neg (by rw [hD1dn]; simpa [Bool.not_eq_true] using hdn)] at hok
      obtain ⟨hdev, hother, hmt, hmf⟩ :=
        stateMaskStage_spec (dictInsert (dictInsert d "reward" (.num 0)) "done" (.boolv false))
          dev st hok
      have hD2ne : ∀ j : String, j ≠ "done" →
          dictLookup (dictInsert (dictInsert d "reward" (.num 0)) "done" (.boolv false)) j =
            dictLookup (dictInsert d "reward" (.num 0)) j :=
        fun j hj => dictLookup_dictInsert_of_ne _ "done" j (.boolv false) hj
      have hD2mk : dictContains
          (dictInsert (dictInsert d "reward" (.num 0)) "done" (.boolv false)) "mask" =
          dictContains d "mask" := by
        rw [dictContains_dictInsert_ne _ "done" "mask" (.boolv false) (by decide), hD1mk]
      refine ⟨hdev, ?_, ?_, ?_, ?_, ?_⟩
      · intro j h1 h2 h3
        rw [hother j h3, hD2ne j h2]
        exact hD1ne j h1
      · rw [hother "reward" (by decide), hD2ne "reward" (by decide),
          dictLookup_dictInsert_self d "reward" (.num 0),
          if_neg (by simp [Bool.not_eq_true] at hr ⊢; exact hr)]
      · rw [hother "done" (by decide), dictLookup_dictInsert_self _ "done" (.boolv false),
          if_neg (by simp [Bool.not_eq_true] at hdn ⊢; exact hdn)]
      · intro hc
        rw [hmt (hD2mk.trans hc), hD2ne "mask" (by decide), hD1ne "mask" (by decide)]
      · intro hc
        obtain ⟨dv, m, hdv, hpm, hm⟩ := hmf (hD2mk.trans hc)
        refine ⟨dv, m, ?_, hpm, hm⟩
        rw [hother "done" (by decide)]
        exact hdv

lemma stateTensorInit_unfold (x : InitArg) (shape : List Nat) (dev : String)
    (kwargs : PyDict) :
    StateTensor.init x shape dev kwargs =
      (if dictContains (initBase x kwargs) "observation" = false
       then .error "StateTensor must contain an observation"
       else stateTensorAfterObs (initBase x kwargs) shape dev) := rfl

lemma stateTensorMaskStage_spec (d2 : PyDict) (shape : List Nat) (dev : String)
    (st : StateTensor) (hok : stateTensorMaskStage d2 shape dev = .ok st) :
    st.device = dev ∧ st.shape = shape ∧
    (∀ j, j ≠ "mask" → dictLookup st.data j = dictLookup d2 j) ∧
    (dictContains d2 "mask" = true → dictLookup st.data "mask" = dictLookup d2 "mask") ∧
    (dictContains d2 "mask" = false →
       ∃ dv m, dictLookup d2 "done" = some dv ∧ pyOneMinusFloat dv = some m ∧
         dictLookup st.data "mask" = some m) := by
  unfold stateTensorMaskStage at hok
  by_cases hmk : dictContains d2 "mask" = true
  · rw [if_pos hmk] at hok
    injection hok with h1
    subst h1
    refine ⟨rfl, rfl, fun j _ => rfl, fun _ => rfl, ?_⟩
    intro hc; rw [hmk] at hc; cases hc
  · rw [if_neg hmk] at hok
    cases hdv : dictLookup d2 "done" with
    | none => rw [hdv] at hok; cases hok
    | some dv =>
      rw [hdv] at hok
      dsimp only [] at hok
      cases hpm : pyOneMinusFloat dv with
      | none => rw [hpm] at hok; cases hok
      | some m =>
        rw [hpm] at hok
        injection hok with h1
        subst h1
        refine ⟨rfl, rfl, fun j hj => dictLookup_dictInsert_of_ne d2 "mask" j m hj, ?_, ?_⟩
        · intro hc; exact absurd hc hmk
        · intro _
          exact ⟨dv, m, rfl, hpm, dictLookup_dictInsert_self d2 "mask" m⟩

lemma stateTensorAfterObs_spec (d : PyDict) (shape : List Nat) (dev : String)
    (st : StateTensor) (hok : stateTensorAfterObs d shape dev = .ok st) :
    st.device = dev ∧ st.shape = shape ∧
    (∀ j, j ≠ "reward" → j ≠ "done" → j ≠ "mask" →
       dictLookup st.data j = dictLookup d j) ∧
    dictLookup st.data "reward" =
      (if dictContains d "reward" then dictLookup d "reward"
       else some (.tensor ⟨shape, List.replicate shape.prod 0⟩)) ∧
    dictLookup st.data "done" =
      (if dictContains d "done" then dictLookup d "done"
       else some (.tensor ⟨shape, List.replicate shape.prod 0⟩)) ∧
    (dictContains d "mask" = true → dictLookup st.data "mask" = dictLookup d "mask") ∧
    (dictContains d "mask" = false →
       ∃ dv m, dictLookup st.data "done" = some dv ∧ pyOneMinusFloat dv = some m ∧
         dictLookup st.data "mask" = some m) := by
  unfold stateTensorAfterObs stateTensorDoneStage at hok
  by_cases hr : dictContains d "reward" = true
  · rw [if_pos hr] at hok
    by_cases hdn : dictContains d "done" = true
    · rw [if_pos hdn] at hok
      obtain ⟨hdev, hsh, hother, hmt, hmf⟩ := stateTensorMaskStage_spec d shape dev st hok
      refine ⟨hdev, hsh, fun j _ _ h3 => hother j h3, ?_, ?_, hmt, ?_⟩
      · rw [hother "reward" (by decide), if_pos hr]
      · rw [hother "done" (by decide), if_pos hdn]
      · intro hc
        obtain ⟨dv, m, hdv, hpm, hm⟩ := hmf hc
        exact ⟨dv, m, by rw [hother "done" (by decide)]; exact hdv, hpm, hm⟩
    · rw [if_neg hdn] at hok
      obtain ⟨hdev, hsh, hother, hmt, hmf⟩ :=
        stateTensorMaskStage_spec
          (dictInsert d "done" (.tensor ⟨shape, List.replicate shape.prod 0⟩)) shape dev st hok
      have hD2ne : ∀ j : String, j ≠ "done" →
          dictLookup (dictInsert d "done" (.tensor ⟨shape, List.replicate shape.prod 0⟩)) j =
            dictLookup d j :=
        fun j hj => dictLookup_dictInsert_of_ne d "done" j _ hj
      have hD2mk : dictContains
          (dictInsert d "done" (.tensor ⟨shape, List.replicate shape.prod 0⟩)) "mask" =
          dictContains d "mask" :=
        dictContains_dictInsert_ne d "done" "mask" _ (by decide)
      refine ⟨hdev, hsh, ?_, ?_, ?_, ?_, ?_⟩
      · intro j _ h2 h3
        rw [hother j h3]
        exact hD2ne j h2
      · rw [hother "reward" (by decide), hD2ne "reward" (by decide), if_pos hr]
      · rw [hother "done" (by decide), dictLookup_dictInsert_self d "done" _,
          if_neg (by simp [Bool.not_eq_true] at hdn ⊢; exact hdn)]
      · intro hc
        rw [hmt (hD2mk.trans hc), hD2ne "mask" (by decide)]
      · intro hc
        obtain ⟨dv, m, hdv, hpm, hm⟩ := hmf (hD2mk.trans hc)
        exact ⟨dv, m, by rw [hother "done" (by decide)]; exact hdv, hpm, hm⟩
  · rw [if_neg hr] at hok
    have hD1ne : ∀ j : String, j ≠ "reward" →
        dictLookup (dictInsert d "reward" (.tensor ⟨shape, List.replicate shape.prod 0⟩)) j =
          dictLookup d j :=
      fun j hj => dictLookup_dictInsert_of_ne d "reward" j _ hj
    have hD1dn : dictContains
        (dictInsert d "reward" (.tensor ⟨shape, List.replicate shape.prod 0⟩)) "done" =
        dictContains d "done" :=
      dictContains_dictInsert_ne d "reward" "done" _ (by decide)
    have hD1mk : dictContains
        (dictInsert d "reward" (.tensor ⟨shape, List.replicate shape.prod 0⟩)) "mask" =
        dictContains d "mask" :=
      dictContains_dictInsert_ne d "reward" "mask" _ (by decide)
    by_cases hdn : dictContains d "done" = true
    · rw [if_pos (hD1dn.trans hdn)] at hok
      obtain ⟨hdev, hsh, hother, hmt, hmf⟩ :=
        stateTensorMaskStage_spec
          (dictInsert d "reward" (.tensor ⟨shape, List.replicate shape.prod 0⟩)) shape dev st
          hok
      refine ⟨hdev, hsh, ?_, ?_, ?_, ?_, ?_⟩
      · intro j h1 _ h3
        rw [hother j h3]
        exact hD1ne j h1
      · rw [hother "reward" (by decide), dictLookup_dictInsert_self d "reward" _,
          if_neg (by simp [Bool.not_eq_true] at hr ⊢; exact hr)]
      · rw [hother "done" (by decide), hD1ne "done" (by decide), if_pos hdn]
      · intro hc
        rw [hmt (hD1mk.trans hc), hD1ne "mask" (by decide)]
      · intro hc
        obtain ⟨dv, m, hdv, hpm, hm⟩ := hmf (hD1mk.trans hc)
        refine ⟨dv, m, ?_, hpm, hm⟩
        rw [hother "done" (by decide)]
        exact hdv
    · rw [if_neg (by rw [hD1dn]; simpa [Bool.not_eq_true] using hdn)] at hok
      obtain ⟨hdev, hsh, hother, hmt, hmf⟩ :=
        stateTensorMaskStage_spec
          (dictInsert (dictInsert d "reward" (.tensor ⟨shape, List.replicate shape.prod 0⟩))
            "done" (.tensor ⟨shape, List.replicate shape.prod 0⟩)) shape dev st hok
      have hD2ne : ∀ j : String, j ≠ "done" →
          dictLookup (dictInsert
            (dictInsert d "reward" (.tensor ⟨shape, List.replicate shape.prod 0⟩))
            "done" (.tensor ⟨shape, List.replicate shape.prod 0⟩)) j =
            dictLookup (dictInsert d "reward"
              (.tensor ⟨shape, List.replicate shape.prod 0⟩)) j :=
        fun j hj => dictLookup_dictInsert_of_ne _ "done" j _ hj
      have hD2mk : dictContains (dictInsert
          (dictInsert d "reward" (.tensor ⟨shape, List.replicate shape.prod 0⟩))
          "done" (.tensor ⟨shape, List.replicate shape.prod 0⟩)) "mask" =
          dictContains d "mask" := by
        rw [dictContains_dictInsert_ne _ "done" "mask" _ (by decide), hD1mk]
      refine ⟨hdev, hsh, ?_, ?_, ?_, ?_, ?_⟩
      · intro j h1 h2 h3
        rw [hother j h3, hD2ne j h2]
        exact hD1ne j h1
      · rw [hother "reward" (by decide), hD2ne "reward" (by decide),
          dictLookup_dictInsert_self d "reward" _,
          if_neg (by simp [Bool.not_eq_true] at hr ⊢; exact hr)]
      · rw [hother "done" (by decide), dictLookup_dictInsert_self _ "done" _,
          if_neg (by simp [Bool.not_eq_true] at hdn ⊢; exact hdn)]
      · intro hc
        rw [hmt (hD2mk.trans hc), hD2ne "mask" (by decide), hD1ne "mask" (by decide)]
      · intro hc
        obtain ⟨dv, m, hdv, hpm, hm⟩ := hmf (hD2mk.trans hc)
        refine ⟨dv, m, ?_, hpm, hm⟩
        rw [hother "done" (by decide)]
        exact hdv

/-! ### Claim theorems -/

/-- C1: for every State or StateTensor constructed without an explicit
`mask` field, the result satisfies `mask == 1 - done` (the exact
expression the constructors compute: `1. - done` resp.
`1. - done.float()`), and when `reward`/`done` are also omitted they
default to `0` and `False` (batch: zero tensors), so `mask` defaults to
`1` (batch: the all-ones tensor). -/
theorem C1_mask_is_one_minus_done :
    (∀ (x : InitArg) (dev : String) (kwargs : PyDict) (st : State),
       dictContains (initBase x kwargs) "mask" = false →
       State.init x dev kwargs = .ok st →
       ∃ dv m, dictLookup st.data "done" = some dv ∧ pyOneMinus dv = some m ∧
         dictLookup st.data "mask" = some m) ∧
    (∀ (x : InitArg) (dev : String) (kwargs : PyDict) (st : State),
       dictContains (initBase x kwargs) "reward" = false →
       dictContains (initBase x kwargs) "done" = false →
       dictContains (initBase x kwargs) "mask" = false →
       State.init x dev kwargs = .ok st →
       dictLookup st.data "reward" = some (.num 0) ∧
       dictLookup st.data "done" = some (.boolv false) ∧
       dictLookup st.data "mask" = some (.num 1)) ∧
    (∀ (x : InitArg) (shape : List Nat) (dev : String) (kwargs : PyDict)
       (st : StateTensor),
       dictContains (initBase x kwargs) "mask" = false →
       StateTensor.init x shape dev kwargs = .ok st →
       ∃ dv m, dictLookup st.data "done" = some dv ∧ pyOneMinusFloat dv = some m ∧
         dictLookup st.data "mask" = some m) ∧
    (∀ (x : InitArg) (shape : List Nat) (dev : String) (kwargs : PyDict)
       (st : StateTensor),
       dictContains (initBase x kwargs) "reward" = false →
       dictContains (initBase x kwargs) "done" = false →
       dictContains (initBase x kwargs) "mask" = false →
       StateTensor.init x shape dev kwargs = .ok st →
       dictLookup st.data "reward" = some (.tensor ⟨shape, List.replicate shape.prod 0⟩) ∧
       dictLookup st.data "done" = some (.tensor ⟨shape, List.replicate shape.prod 0⟩) ∧
       dictLookup st.data "mask" = some (.tensor ⟨shape, List.replicate shape.prod 1⟩)) := by
  refine ⟨?_, ?_, ?_, ?_⟩
  · intro x dev kwargs st hnm hok
    rw [stateInit_unfold] at hok
    by_cases hobs : dictContains (initBase x kwargs) "observation" = false
    · rw [if_pos hobs] at hok; cases hok
    · rw [if_neg hobs] at hok
      obtain ⟨_, _, _, _, _, hmf⟩ := stateAfterObs_spec (initBase x kwargs) dev st hok
      exact hmf hnm
  · intro x dev kwargs st hnr hnd hnm hok
    rw [stateInit_unfold] at hok
    by_cases hobs : dictContains (initBase x kwargs) "observation" = false
    · rw [if_pos hobs] at hok; cases hok
    · rw [if_neg hobs] at hok
      obtain ⟨_, _, hrew, hdone, _, hmf⟩ := stateAfterObs_spec (initBase x kwargs) dev st hok
      have hdone2 : dictLookup st.data "done" = some (.boolv false) := by
        rw [hdone, if_neg (by simp [hnd])]
      obtain ⟨dv, m, hdv, hpm, hm⟩ := hmf hnm
      rw [hdone2] at hdv
      injection hdv with h1
      subst h1
      rw [(by simp [pyOneMinus] : pyOneMinus (PyVal.boolv false) = some (PyVal.num 1))]
        at hpm
      injection hpm with h2
      subst h2
      exact ⟨by rw [hrew, if_neg (by simp [hnr])], hdone2, hm⟩
  · intro x shape dev kwargs st hnm hok
    rw [stateTensorInit_unfold] at hok
    by_cases hobs : dictContains (initBase x kwargs) "observation" = false
    · rw [if_pos hobs] at hok; cases hok
    · rw [if_neg hobs] at hok
      obtain ⟨_, _, _, _, _, _, hmf⟩ :=
        stateTensorAfterObs_spec (initBase x kwargs) shape dev st hok
      exact hmf hnm
  · intro x shape dev kwargs st hnr hnd hnm hok
    rw [stateTensorInit_unfold] at hok
    by_cases hobs : dictContains (initBase x kwargs) "observation" = false
    · rw [if_pos hobs] at hok; cases hok
    · rw [if_neg hobs] at hok
      obtain ⟨_, _, _, hrew, hdone, _, hmf⟩ :=
        stateTensorAfterObs_spec (initBase x kwargs) shape dev st hok
      have hdone2 : dictLookup st.data "done" =
          some (.tensor ⟨shape, List.replicate shape.prod 0⟩) := by
        rw [hdone, if_neg (by simp [hnd])]
      obtain ⟨dv, m, hdv, hpm, hm⟩ := hmf hnm
      rw [hdone2] at hdv
      injection hdv with h1
      subst h1
      have hcomp : pyOneMinusFloat (PyVal.tensor ⟨shape, List.replicate shape.prod 0⟩) =
          some (PyVal.tensor ⟨shape, List.replicate shape.prod 1⟩) := by
        simp [pyOneMinusFloat, Tensor.oneMinus, List.map_replicate]
      rw [hcomp] at hpm
      injection hpm with h2
      subst h2
      exact ⟨by rw [hrew, if_neg (by simp [hnr])], hdone2, hm⟩

/-- witness for C1 at concrete inputs: a State built from
`{'observation': 7}` and a StateTensor of batch shape `[2]` built from a
single observation tensor. -/
theorem C1_mask_is_one_minus_done_witness :
    (dictContains (initBase (.dict [("observation", PyVal.num 7)]) []) "mask" = false ∧
     dictLookup (State.mk [("observation", PyVal.num 7), ("reward", PyVal.num 0),
         ("done", PyVal.boolv false), ("mask", PyVal.num 1)] "cpu").data "reward" =
       some (PyVal.num 0) ∧
     dictLookup (State.mk [("observation", PyVal.num 7), ("reward", PyVal.num 0),
         ("done", PyVal.boolv false), ("mask", PyVal.num 1)] "cpu").data "done" =
       some (PyVal.boolv false) ∧
     dictLookup (State.mk [("observation", PyVal.num 7), ("reward", PyVal.num 0),
         ("done", PyVal.boolv false), ("mask", PyVal.num 1)] "cpu").data "mask" =
       some (PyVal.num 1)) ∧
    (dictLookup (StateTensor.mk [("observation", PyVal.tensor ⟨[2], [5, 6]⟩),
         ("reward", PyVal.tensor ⟨[2], [0, 0]⟩), ("done", PyVal.tensor ⟨[2], [0, 0]⟩),
         ("mask", PyVal.tensor ⟨[2], [1, 1]⟩)] [2] "cpu").data "mask" =
       some (PyVal.tensor ⟨[2], List.replicate ([2] : List Nat).prod 1⟩)) := by
  constructor
  · refine ⟨by decide, ?_⟩
    exact C1_mask_is_one_minus_done.2.1 (.dict [("observation", PyVal.num 7)]) "cpu" []
      (State.mk [("observation", PyVal.num 7), ("reward", PyVal.num 0),
        ("done", PyVal.boolv false), ("mask", PyVal.num 1)] "cpu")
      (by decide) (by decide) (by decide) rfl
  · exact (C1_mask_is_one_minus_done.2.2.2 (.dict [("observation", PyVal.tensor ⟨[2], [5, 6]⟩)])
      [2] "cpu" []
      (StateTensor.mk [("observation", PyVal.tensor ⟨[2], [5, 6]⟩),
        ("reward", PyVal.tensor ⟨[2], [0, 0]⟩), ("done", PyVal.tensor ⟨[2], [0, 0]⟩),
        ("mask", PyVal.tensor ⟨[2], [1, 1]⟩)] [2] "cpu")
      (by decide) (by decide) (by decide) rfl).2.2

/-- C2: constructing a State or StateTensor whose (kwargs-merged) dict
has no `observation` key raises; the field is never defaulted, and every
successfully constructed instance contains `observation`. -/
theorem C2_observation_required :
    (∀ (d : PyDict) (dev : String) (kwargs : PyDict),
       dictContains (initBase (.dict d) kwargs) "observation" = false →
       State.init (.dict d) dev kwargs = .error "State must contain an observation") ∧
    (∀ (x : InitArg) (dev : String) (kwargs : PyDict) (st : State),
       State.init x dev kwargs = .ok st → dictContains st.data "observation" = true) ∧
    (∀ (d : PyDict) (shape : List Nat) (dev : String) (kwargs : PyDict),
       dictContains (initBase (.dict d) kwargs) "observation" = false →
       StateTensor.init (.dict d) shape dev kwargs =
         .error "StateTensor must contain an observation") ∧
    (∀ (x : InitArg) (shape : List Nat) (dev : String) (kwargs : PyDict)
       (st : StateTensor),
       StateTensor.init x shape dev kwargs = .ok st →
       dictContains st.data "observation" = true) := by
  refine ⟨?_, ?_, ?_, ?_⟩
  · intro d dev kwargs h
    rw [stateInit_unfold, if_pos h]
  · intro x dev kwargs st hok
    rw [stateInit_unfold] at hok
    by_cases hobs : dictContains (initBase x kwargs) "observation" = false
    · rw [if_pos hobs] at hok; cases hok
    · rw [if_neg hobs] at hok
      obtain ⟨_, hother, _, _, _, _⟩ := stateAfterObs_spec (initBase x kwargs) dev st hok
      have h1 : dictContains (initBase x kwargs) "observation" = true := by
        revert hobs; cases dictContains (initBase x kwargs) "observation" <;> simp
      rw [dictContains, hother "observation" (by decide) (by decide) (by decide)]
      exact h1
  · intro d shape dev kwargs h
    rw [stateTensorInit_unfold, if_pos h]
  · intro x shape dev kwargs st hok
    rw [stateTensorInit_unfold] at hok
    by_cases hobs : dictContains (initBase x kwargs) "observation" = false
    · rw [if_pos hobs] at hok; cases hok
    · rw [if_neg hobs] at hok
      obtain ⟨_, _, hother, _, _, _, _⟩ :=
        stateTensorAfterObs_spec (initBase x kwargs) shape dev st hok
      have h1 : dictContains (initBase x kwargs) "observation" = true := by
        revert hobs; cases dictContains (initBase x kwargs) "observation" <;> simp
      rw [dictContains, hother "observation" (by decide) (by decide) (by decide)]
      exact h1

/-- witness for C2: a dict with only a `reward` key is rejected by both
constructors, and a successfully built State contains `observation`. -/
theorem C2_observation_required_witness :
    (dictContains (initBase (.dict [("reward", PyVal.num 3)]) []) "observation" = false ∧
     State.init (.dict [("reward", PyVal.num 3)]) "cpu" [] =
       .error "State must contain an observation" ∧
     StateTensor.init (.dict [("reward", PyVal.num 3)]) [2] "cpu" [] =
       .error "StateTensor must contain an observation") ∧
    dictContains (State.mk [("observation", PyVal.num 7), ("reward", PyVal.num 0),
      ("done", PyVal.boolv false), ("mask", PyVal.num 1)] "cpu").data "observation" = true := by
  refine ⟨⟨by decide, ?_, ?_⟩, ?_⟩
  · exact C2_observation_required.1 [("reward", PyVal.num 3)] "cpu" [] (by decide)
  · exact C2_observation_required.2.2.1 [("reward", PyVal.num 3)] [2] "cpu" [] (by decide)
  · exact C2_observation_required.2.1 (.dict [("observation", PyVal.num 7)]) "cpu" []
      (State.mk [("observation", PyVal.num 7), ("reward", PyVal.num 0),
        ("done", PyVal.boolv false), ("mask", PyVal.num 1)] "cpu") rfl

lemma contains_upd (d : PyDict) (key c : String) (value : PyVal)
    (h : dictContains d c = true) :
    dictContains (dictInsert (removeKey d key) key value) c = true := by
  by_cases hc : c = key
  · subst hc
    exact dictContains_dictInsert_self _ _ _
  · rw [dictContains_dictInsert_ne _ _ _ _ hc, dictContains_removeKey_ne _ _ _ hc]
    exact h

lemma hasCoreKeys_upd (d : PyDict) (key : String) (value : PyVal)
    (h : hasCoreKeys d = true) :
    hasCoreKeys (dictInsert (removeKey d key) key value) = true := by
  obtain ⟨h1, h2, h3, h4⟩ := hasCoreKeys_spec d h
  simp only [hasCoreKeys, Bool.and_eq_true]
  exact ⟨⟨⟨contains_upd d key _ value h1, contains_upd d key _ value h2⟩,
    contains_upd d key _ value h3⟩, contains_upd d key _ value h4⟩

lemma stateUpdate_ok (s : State) (key : String) (value : PyVal)
    (h : hasCoreKeys s.data = true) :
    State.update s key value =
      .ok ⟨dictInsert (removeKey s.data key) key value, s.device⟩ := by
  obtain ⟨h1, h2, h3, h4⟩ := hasCoreKeys_spec _ (hasCoreKeys_upd s.data key value h)
  exact stateInit_complete _ s.device h1 h2 h3 h4

lemma stateTensorUpdate_ok (s : StateTensor) (key : String) (value : PyVal)
    (h : hasCoreKeys s.data = true) :
    StateTensor.update s key value =
      .ok ⟨dictInsert (removeKey s.data key) key value, s.shape, s.device⟩ := by
  obtain ⟨h1, h2, h3, h4⟩ := hasCoreKeys_spec _ (hasCoreKeys_upd s.data key value h)
  exact stateTensorInit_complete _ s.shape s.device h1 h2 h3 h4

/-- C9: `update` is pure and local: the updated key maps to the new
value, every other field keeps its value (in particular, updating `done`
carries the old `mask` along unchanged — the constructor's mask
derivation does not fire because `mask` is still present), and the batch
shape and device are preserved. -/
theorem C9_update_frame :
    (∀ (s : State) (key : String) (value : PyVal),
       hasCoreKeys s.data = true →
       ∃ s1, State.update s key value = .ok s1 ∧ s1.device = s.device ∧
         dictLookup s1.data key = some value ∧
         ∀ j, j ≠ key → dictLookup s1.data j = dictLookup s.data j) ∧
    (∀ (s : StateTensor) (key : String) (value : PyVal),
       hasCoreKeys s.data = true →
       ∃ s1, StateTensor.update s key value = .ok s1 ∧ s1.device = s.device ∧
         s1.shape = s.shape ∧ dictLookup s1.data key = some value ∧
         ∀ j, j ≠ key → dictLookup s1.data j = dictLookup s.data j) := by
  constructor
  · intro s key value h
    refine ⟨⟨dictInsert (removeKey s.data key) key value, s.device⟩,
      stateUpdate_ok s key value h, rfl, ?_, ?_⟩
    · rw [updLookup]; simp
    · intro j hj
      rw [updLookup]
      simp [hj]
  · intro s key value h
    refine ⟨⟨dictInsert (removeKey s.data key) key value, s.shape, s.device⟩,
      stateTensorUpdate_ok s key value h, rfl, rfl, ?_, ?_⟩
    · rw [updLookup]; simp
    · intro j hj
      rw [updLookup]
      simp [hj]

/-- witness for C9: updating `done` on a concrete State and StateTensor
leaves `mask` (and all other fields) unchanged. -/
theorem C9_update_frame_witness :
    (hasCoreKeys [("observation", PyVal.num 7), ("reward", PyVal.num 0),
       ("done", PyVal.boolv false), ("mask", PyVal.num 1)] = true ∧
     ∃ s1, State.update (State.mk [("observation", PyVal.num 7), ("reward", PyVal.num 0),
         ("done", PyVal.boolv false), ("mask", PyVal.num 1)] "cpu") "done"
         (PyVal.boolv true) = .ok s1 ∧
       s1.device = "cpu" ∧ dictLookup s1.data "done" = some (PyVal.boolv true) ∧
       ∀ j, j ≠ "done" →
         dictLookup s1.data j = dictLookup [("observation", PyVal.num 7),
           ("reward", PyVal.num 0), ("done", PyVal.boolv false),
           ("mask", PyVal.num 1)] j) ∧
    (∃ s1, StateTensor.update (StateTensor.mk [("observation", PyVal.tensor ⟨[2], [5, 6]⟩),
         ("reward", PyVal.tensor ⟨[2], [0, 0]⟩), ("done", PyVal.tensor ⟨[2], [0, 0]⟩),
         ("mask", PyVal.tensor ⟨[2], [1, 1]⟩)] [2] "cpu") "done"
         (PyVal.tensor ⟨[2], [1, 1]⟩) = .ok s1 ∧
       s1.device = "cpu" ∧ s1.shape = [2] ∧
       dictLookup s1.data "done" = some (PyVal.tensor ⟨[2], [1, 1]⟩) ∧
       ∀ j, j ≠ "done" →
         dictLookup s1.data j = dictLookup [("observation", PyVal.tensor ⟨[2], [5, 6]⟩),
           ("reward", PyVal.tensor ⟨[2], [0, 0]⟩), ("done", PyVal.tensor ⟨[2], [0, 0]⟩),
           ("mask", PyVal.tensor ⟨[2], [1, 1]⟩)] j) := by
  refine ⟨⟨by decide, ?_⟩, ?_⟩
  · exact C9_update_frame.1 (State.mk [("observation", PyVal.num 7), ("reward", PyVal.num 0),
      ("done", PyVal.boolv false), ("mask", PyVal.num 1)] "cpu") "done" (PyVal.boolv true)
      (by decide)
  · exact C9_update_frame.2 (StateTensor.mk [("observation", PyVal.tensor ⟨[2], [5, 6]⟩),
      ("reward", PyVal.tensor ⟨[2], [0, 0]⟩), ("done", PyVal.tensor ⟨[2], [0, 0]⟩),
      ("mask", PyVal.tensor ⟨[2], [1, 1]⟩)] [2] "cpu") "done" (PyVal.tensor ⟨[2], [1, 1]⟩)
      (by decide)

/-- C4: `s.update(k, v).update(k, s[k])` restores the original state
observationally: every key (k itself and all others) looks up to its
original value, and the set of fields is unchanged; shape and device are
preserved. -/
theorem C4_update_roundtrip :
    (∀ (s : State) (k : String) (v w : PyVal),
       hasCoreKeys s.data = true → dictLookup s.data k = some w →
       ∃ s1 s2, State.update s k v = .ok s1 ∧ State.update s1 k w = .ok s2 ∧
         s2.device = s.device ∧ ∀ j, dictLookup s2.data j = dictLookup s.data j) ∧
    (∀ (s : StateTensor) (k : String) (v w : PyVal),
       hasCoreKeys s.data = true → StateTensor.getStr s k = w →
       dictContains s.data k = true →
       ∃ s1 s2, StateTensor.update s k v = .ok s1 ∧ StateTensor.update s1 k w = .ok s2 ∧
         s2.device = s.device ∧ s2.shape = s.shape ∧
         ∀ j, dictLookup s2.data j = dictLookup s.data j) := by
  constructor
  · intro s k v w h hw
    have h1 := hasCoreKeys_upd s.data k v h
    refine ⟨⟨dictInsert (removeKey s.data k) k v, s.device⟩, _,
      stateUpdate_ok s k v h,
      stateUpdate_ok ⟨dictInsert (removeKey s.data k) k v, s.device⟩ k w h1, rfl, ?_⟩
    intro j
    by_cases hj : j = k
    · subst hj
      rw [updLookup, if_pos rfl, hw]
    · rw [updLookup, if_neg hj, updLookup, if_neg hj]
  · intro s k v w hcore hgs hc
    obtain ⟨w0, hw0⟩ := (dictContains_iff s.data k).mp hc
    have hw : dictLookup s.data k = some w := by
      rw [hw0]
      unfold StateTensor.getStr at hgs
      rw [hw0] at hgs
      dsimp only [] at hgs
      rw [hgs]
    have h1 := hasCoreKeys_upd s.data k v hcore
    refine ⟨⟨dictInsert (removeKey s.data k) k v, s.shape, s.device⟩, _,
      stateTensorUpdate_ok s k v hcore,
      stateTensorUpdate_ok ⟨dictInsert (removeKey s.data k) k v, s.shape, s.device⟩ k w h1,
      rfl, rfl, ?_⟩
    intro j
    by_cases hj : j = k
    · subst hj
      rw [updLookup, if_pos rfl, hw]
    · rw [updLookup, if_neg hj, updLookup, if_neg hj]

/-- witness for C4: overwriting and restoring `reward` on a concrete
State and a concrete StateTensor reproduces all original lookups. -/
theorem C4_update_roundtrip_witness :
    (hasCoreKeys [("observation", PyVal.num 7), ("reward", PyVal.num 0),
       ("done", PyVal.boolv false), ("mask", PyVal.num 1)] = true ∧
     ∃ s1 s2, State.update (State.mk [("observation", PyVal.num 7), ("reward", PyVal.num 0),
         ("done", PyVal.boolv false), ("mask", PyVal.num 1)] "cpu") "reward"
         (PyVal.num 9) = .ok s1 ∧
       State.update s1 "reward" (PyVal.num 0) = .ok s2 ∧ s2.device = "cpu" ∧
       ∀ j, dictLookup s2.data j = dictLookup [("observation", PyVal.num 7),
         ("reward", PyVal.num 0), ("done", PyVal.boolv false), ("mask", PyVal.num 1)] j) ∧
    (∃ s1 s2, StateTensor.update (StateTensor.mk
         [("observation", PyVal.tensor ⟨[2], [5, 6]⟩), ("reward", PyVal.tensor ⟨[2], [0, 0]⟩),
          ("done", PyVal.tensor ⟨[2], [0, 0]⟩), ("mask", PyVal.tensor ⟨[2], [1, 1]⟩)]
         [2] "cpu") "reward" (PyVal.num 9) = .ok s1 ∧
       StateTensor.update s1 "reward" (PyVal.tensor ⟨[2], [0, 0]⟩) = .ok s2 ∧
       s2.device = "cpu" ∧ s2.shape = [2] ∧
       ∀ j, dictLookup s2.data j = dictLookup [("observation", PyVal.tensor ⟨[2], [5, 6]⟩),
         ("reward", PyVal.tensor ⟨[2], [0, 0]⟩), ("done", PyVal.tensor ⟨[2], [0, 0]⟩),
         ("mask", PyVal.tensor ⟨[2], [1, 1]⟩)] j) := by
  refine ⟨⟨by decide, ?_⟩, ?_⟩
  · exact C4_update_roundtrip.1 (State.mk [("observation", PyVal.num 7),
      ("reward", PyVal.num 0), ("done", PyVal.boolv false), ("mask", PyVal.num 1)] "cpu")
      "reward" (PyVal.num 9) (PyVal.num 0) (by decide) (by decide)
  · exact C4_update_roundtrip.2 (StateTensor.mk [("observation", PyVal.tensor ⟨[2], [5, 6]⟩),
      ("reward", PyVal.tensor ⟨[2], [0, 0]⟩), ("done", PyVal.tensor ⟨[2], [0, 0]⟩),
      ("mask", PyVal.tensor ⟨[2], [1, 1]⟩)] [2] "cpu") "reward" (PyVal.num 9)
      (PyVal.tensor ⟨[2], [0, 0]⟩) (by decide) (by decide) (by decide)

/-- C10: subscripting a StateTensor with a missing string key returns
Python `None` instead of raising, while a plain State (an ordinary dict)
raises `KeyError` for a missing key; a present key returns its value in
both. -/
theorem C10_missing_key_lookup :
    (∀ (s : StateTensor) (k : String), dictContains s.data k = false →
       StateTensor.getStr s k = PyVal.pynone) ∧
    (∀ (s : State) (k : String), dictContains s.data k = false →
       State.getItem s k = .error "KeyError") ∧
    (∀ (s : StateTensor) (k : String) (v : PyVal), dictLookup s.data k = some v →
       StateTensor.getStr s k = v) ∧
    (∀ (s : State) (k : String) (v : PyVal), dictLookup s.data k = some v →
       State.getItem s k = .ok v) := by
  refine ⟨?_, ?_, ?_, ?_⟩
  · intro s k h
    unfold StateTensor.getStr
    cases h1 : dictLookup s.data k with
    | none => rfl
    | some v => rw [dictContains, h1] at h; cases h
  · intro s k h
    unfold State.getItem
    cases h1 : dictLookup s.data k with
    | none => rfl
    | some v => rw [dictContains, h1] at h; cases h
  · intro s k v h
    unfold StateTensor.getStr
    rw [h]
  · intro s k v h
    unfold State.getItem
    rw [h]

/-- witness for C10: looking up the absent key `"info"` on a concrete
StateTensor yields `None`, on a concrete State it raises `KeyError`. -/
theorem C10_missing_key_lookup_witness :
    (dictContains [("observation", PyVal.tensor ⟨[2], [5, 6]⟩),
       ("mask", PyVal.tensor ⟨[2], [1, 1]⟩)] "info" = false ∧
     StateTensor.getStr (StateTensor.mk [("observation", PyVal.tensor ⟨[2], [5, 6]⟩),
       ("mask", PyVal.tensor ⟨[2], [1, 1]⟩)] [2] "cpu") "info" = PyVal.pynone) ∧
    State.getItem (State.mk [("observation", PyVal.num 7), ("mask", PyVal.num 1)] "cpu")
      "info" = .error "KeyError" := by
  refine ⟨⟨by decide, ?_⟩, ?_⟩
  · exact C10_missing_key_lookup.1 (StateTensor.mk
      [("observation", PyVal.tensor ⟨[2], [5, 6]⟩), ("mask", PyVal.tensor ⟨[2], [1, 1]⟩)]
      [2] "cpu") "info" (by decide)
  · exact C10_missing_key_lookup.2.1 (State.mk
      [("observation", PyVal.num 7), ("mask", PyVal.num 1)] "cpu") "info" (by decide)

lemma pyViewTrailing_ok (t : Tensor) (dims : Nat) (newLead : List Nat)
    (h : (newLead ++ t.shape.drop dims).prod = t.shape.prod) :
    pyViewTrailing dims newLead (.tensor t) =
      .ok (.tensor ⟨newLead ++ t.shape.drop dims, t.data⟩) := by
  unfold pyViewTrailing Tensor.view
  dsimp only []
  rw [if_pos h]

lemma contains_mapValsE (f : PyVal → Except String PyVal) (d d1 : PyDict)
    (hd : mapValsE f d = .ok d1) (k : String) (h : dictContains d k = true) :
    dictContains d1 k = true := by
  obtain ⟨v, hv⟩ := (dictContains_iff d k).mp h
  obtain ⟨v1, _, hv1⟩ := mapValsE_lookup_some f d d1 hd k v hv
  exact (dictContains_iff d1 k).mpr ⟨v1, hv1⟩

lemma hasCoreKeys_mapValsE (f : PyVal → Except String PyVal) (d d1 : PyDict)
    (hd : mapValsE f d = .ok d1) (h : hasCoreKeys d = true) : hasCoreKeys d1 = true := by
  obtain ⟨h1, h2, h3, h4⟩ := hasCoreKeys_spec d h
  simp only [hasCoreKeys, Bool.and_eq_true]
  exact ⟨⟨⟨contains_mapValsE f d d1 hd _ h1, contains_mapValsE f d d1 hd _ h2⟩,
    contains_mapValsE f d d1 hd _ h3⟩, contains_mapValsE f d d1 hd _ h4⟩

lemma pyIndexInt_ok (t : Tensor) (n i : Nat) (r : List Nat) (ht : t.shape = n :: r)
    (hi : i < n) :
    pyIndexInt i (.tensor t) =
      .ok (.tensor ⟨r, (t.data.drop (i * r.prod)).take r.prod⟩) := by
  unfold pyIndexInt Tensor.index
  dsimp only []
  rw [ht]
  dsimp only []
  rw [if_pos hi]

/-- C5: indexing a StateTensor of one-dimensional batch shape `[n]` by an
in-range integer `i` yields a State (batch dimension removed) whose value
at every key is exactly that key's field tensor indexed at `i` — the
manual single-slot reconstruction — with no key added or dropped and the
device preserved. -/
theorem C5_int_index_single_slot :
    ∀ (b : StateTensor) (n i : Nat),
      b.shape = [n] → i < n →
      hasCoreKeys b.data = true →
      tensorFieldsWithLead b.shape b.data = true →
      ∃ st : State, b.getInt i = .ok st ∧ st.device = b.device ∧
        (∀ k v, dictLookup b.data k = some v →
           ∃ t t1, v = PyVal.tensor t ∧ Tensor.index t i = some t1 ∧
             dictLookup st.data k = some (PyVal.tensor t1)) ∧
        (∀ k, dictLookup b.data k = none → dictLookup st.data k = none) := by
  intro b n i hsh hi hcore hfields
  have hall : ∀ p ∈ b.data, ∃ v1, pyIndexInt i p.2 = .ok v1 := by
    intro p hp
    obtain ⟨t, hv, hts⟩ := tensorFieldsWithLead_spec b.shape b.data hfields p hp
    rw [hsh] at hts
    refine ⟨.tensor ⟨t.shape.drop 1, (t.data.drop (i * (t.shape.drop 1).prod)).take
      (t.shape.drop 1).prod⟩, ?_⟩
    rw [hv]
    exact pyIndexInt_ok t n i (t.shape.drop 1) (by simpa using hts) hi
  obtain ⟨d1, hd1⟩ := mapValsE_ok_of_all (pyIndexInt i) b.data hall
  have hcore1 := hasCoreKeys_mapValsE (pyIndexInt i) b.data d1 hd1 hcore
  obtain ⟨h1, h2, h3, h4⟩ := hasCoreKeys_spec d1 hcore1
  refine ⟨⟨d1, b.device⟩, ?_, rfl, ?_, ?_⟩
  · unfold StateTensor.getInt
    rw [hd1]
    exact stateInit_complete d1 b.device h1 h2 h3 h4
  · intro k v hk
    obtain ⟨v1, hfv, hlk⟩ := mapValsE_lookup_some (pyIndexInt i) b.data d1 hd1 k v hk
    obtain ⟨t, hv, hts⟩ :=
      tensorFieldsWithLead_spec b.shape b.data hfields (k, v) (dictLookup_mem b.data k v hk)
    simp only at hv
    rw [hsh] at hts
    subst hv
    rw [pyIndexInt_ok t n i (t.shape.drop 1) (by simpa using hts) hi] at hfv
    injection hfv with hfv1
    refine ⟨t, ⟨t.shape.drop 1, (t.data.drop (i * (t.shape.drop 1).prod)).take
      (t.shape.drop 1).prod⟩, rfl, ?_, ?_⟩
    · unfold Tensor.index
      have hts2 : t.shape = n :: t.shape.drop 1 := by simpa using hts
      rw [hts2]
      dsimp only []
      rw [if_pos hi]
      rfl
    · rw [← hfv1] at hlk
      exact hlk
  · intro k hk
    exact mapValsE_lookup_none (pyIndexInt i) b.data d1 hd1 k hk

/-- witness for C5: slot 1 of a concrete two-slot StateTensor. -/
theorem C5_int_index_single_slot_witness :
    (hasCoreKeys [("observation", PyVal.tensor ⟨[2, 3], [1, 2, 3, 4, 5, 6]⟩),
       ("reward", PyVal.tensor ⟨[2], [0, 7]⟩), ("done", PyVal.tensor ⟨[2], [0, 0]⟩),
       ("mask", PyVal.tensor ⟨[2], [1, 1]⟩)] = true) ∧
    (∃ st : State, StateTensor.getInt (StateTensor.mk
        [("observation", PyVal.tensor ⟨[2, 3], [1, 2, 3, 4, 5, 6]⟩),
         ("reward", PyVal.tensor ⟨[2], [0, 7]⟩), ("done", PyVal.tensor ⟨[2], [0, 0]⟩),
         ("mask", PyVal.tensor ⟨[2], [1, 1]⟩)] [2] "cpu") 1 = .ok st ∧
      st.device = "cpu" ∧
      (∀ k v, dictLookup [("observation", PyVal.tensor ⟨[2, 3], [1, 2, 3, 4, 5, 6]⟩),
         ("reward", PyVal.tensor ⟨[2], [0, 7]⟩), ("done", PyVal.tensor ⟨[2], [0, 0]⟩),
         ("mask", PyVal.tensor ⟨[2], [1, 1]⟩)] k = some v →
         ∃ t t1, v = PyVal.tensor t ∧ Tensor.index t 1 = some t1 ∧
           dictLookup st.data k = some (PyVal.tensor t1)) ∧
      (∀ k, dictLookup [("observation", PyVal.tensor ⟨[2, 3], [1, 2, 3, 4, 5, 6]⟩),
         ("reward", PyVal.tensor ⟨[2], [0, 7]⟩), ("done", PyVal.tensor ⟨[2], [0, 0]⟩),
         ("mask", PyVal.tensor ⟨[2], [1, 1]⟩)] k = none → dictLookup st.data k = none)) := by
  refine ⟨by decide, ?_⟩
  exact C5_int_index_single_slot (StateTensor.mk
    [("observation", PyVal.tensor ⟨[2, 3], [1, 2, 3, 4, 5, 6]⟩),
     ("reward", PyVal.tensor ⟨[2], [0, 7]⟩), ("done", PyVal.tensor ⟨[2], [0, 0]⟩),
     ("mask", PyVal.tensor ⟨[2], [1, 1]⟩)] [2] "cpu") 2 1 rfl (by decide) (by decide)
    (by decide)

/-- C3: for a StateTensor of batch shape `S` whose fields all have
leading dimensions `S`, `flatten()` collapses the batch dimensions into
one and `view(S)` restores them: the round trip reproduces every
per-field tensor exactly (same keys, same shapes, same data). -/
theorem C3_flatten_view_roundtrip :
    ∀ (s : StateTensor),
      hasCoreKeys s.data = true →
      tensorFieldsWithLead s.shape s.data = true →
      ∃ s1 s2, s.flatten = .ok s1 ∧ s1.shape = [s.shape.prod] ∧
        StateTensor.view s1 s.shape = .ok s2 ∧ s2.shape = s.shape ∧
        s2.device = s.device ∧
        ∀ k, dictLookup s2.data k = dictLookup s.data k := by
  intro s hcore hfields
  have hall1 : ∀ p ∈ s.data, ∃ v1,
      pyViewTrailing s.shape.length [s.shape.prod] p.2 = .ok v1 := by
    intro p hp
    obtain ⟨t, hv, hts⟩ := tensorFieldsWithLead_spec s.shape s.data hfields p hp
    refine ⟨.tensor ⟨[s.shape.prod] ++ t.shape.drop s.shape.length, t.data⟩, ?_⟩
    rw [hv]
    refine pyViewTrailing_ok t s.shape.length [s.shape.prod] ?_
    conv_rhs => rw [hts]
    simp [List.prod_append]
  obtain ⟨d1, hd1⟩ := mapValsE_ok_of_all _ s.data hall1
  have hcore1 := hasCoreKeys_mapValsE _ s.data d1 hd1 hcore
  obtain ⟨h1, h2, h3, h4⟩ := hasCoreKeys_spec d1 hcore1
  have hflat : s.flatten = .ok ⟨d1, [s.shape.prod], s.device⟩ := by
    unfold StateTensor.flatten
    rw [hd1]
    exact stateTensorInit_complete d1 [s.shape.prod] s.device h1 h2 h3 h4
  have hall2 : ∀ q ∈ d1, ∃ v2, pyViewTrailing 1 s.shape q.2 = .ok v2 := by
    intro q hq
    obtain ⟨p, hp, _, hfv⟩ := mapValsE_mem _ s.data d1 hd1 q hq
    obtain ⟨t, hv, hts⟩ := tensorFieldsWithLead_spec s.shape s.data hfields p hp
    rw [hv, pyViewTrailing_ok t s.shape.length [s.shape.prod]
      (by conv_rhs => rw [hts]
          simp [List.prod_append])] at hfv
    injection hfv with hfv1
    refine ⟨.tensor ⟨s.shape ++ t.shape.drop s.shape.length, t.data⟩, ?_⟩
    rw [← hfv1]
    have : pyViewTrailing 1 s.shape
        (.tensor ⟨[s.shape.prod] ++ t.shape.drop s.shape.length, t.data⟩) =
        .ok (.tensor (⟨s.shape ++ (([s.shape.prod] ++ t.shape.drop s.shape.length).drop 1),
          t.data⟩ : Tensor)) := by
      refine pyViewTrailing_ok _ 1 s.shape ?_
      simp [List.prod_append]
    rw [this]
    simp
  obtain ⟨d2, hd2⟩ := mapValsE_ok_of_all _ d1 hall2
  have hcore2 := hasCoreKeys_mapValsE _ d1 d2 hd2 hcore1
  obtain ⟨g1, g2, g3, g4⟩ := hasCoreKeys_spec d2 hcore2
  have hview : StateTensor.view ⟨d1, [s.shape.prod], s.device⟩ s.shape =
      .ok ⟨d2, s.shape, s.device⟩ := by
    unfold StateTensor.view
    dsimp only []
    show (match mapValsE (pyViewTrailing 1 s.shape) d1 with
      | Except.error e => Except.error e
      | Except.ok d => StateTensor.init (InitArg.dict d) s.shape s.device []) =
      Except.ok ⟨d2, s.shape, s.device⟩
    rw [hd2]
    exact stateTensorInit_complete d2 s.shape s.device g1 g2 g3 g4
  refine ⟨⟨d1, [s.shape.prod], s.device⟩, ⟨d2, s.shape, s.device⟩, hflat, rfl, hview, rfl,
    rfl, ?_⟩
  intro k
  cases hk : dictLookup s.data k with
  | none =>
    rw [mapValsE_lookup_none _ d1 d2 hd2 k (mapValsE_lookup_none _ s.data d1 hd1 k hk)]
  | some v =>
    obtain ⟨t, hv, hts⟩ :=
      tensorFieldsWithLead_spec s.shape s.data hfields (k, v) (dictLookup_mem s.data k v hk)
    simp only at hv
    subst hv
    obtain ⟨v1, hfv1, hlk1⟩ := mapValsE_lookup_some _ s.data d1 hd1 k _ hk
    rw [pyViewTrailing_ok t s.shape.length [s.shape.prod]
      (by conv_rhs => rw [hts]
          simp [List.prod_append])] at hfv1
    injection hfv1 with hv1
    subst hv1
    obtain ⟨v2, hfv2, hlk2⟩ := mapValsE_lookup_some _ d1 d2 hd2 k _ hlk1
    have hstep : pyViewTrailing 1 s.shape
        (.tensor ⟨[s.shape.prod] ++ t.shape.drop s.shape.length, t.data⟩) =
        .ok (.tensor (⟨s.shape ++ (([s.shape.prod] ++ t.shape.drop s.shape.length).drop 1),
          t.data⟩ : Tensor)) := by
      refine pyViewTrailing_ok _ 1 s.shape ?_
      simp [List.prod_append]
    rw [hstep] at hfv2
    injection hfv2 with hv2
    subst hv2
    show dictLookup d2 k = some (PyVal.tensor t)
    rw [hlk2]
    have hsh2 : s.shape ++ ([s.shape.prod] ++ t.shape.drop s.shape.length).drop 1 =
        t.shape := by
      conv_rhs => rw [hts]
      simp
    rw [hsh2]

/-- witness for C3 on a concrete `[2, 2]`-shaped StateTensor. -/
theorem C3_flatten_view_roundtrip_witness :
    (hasCoreKeys [("observation", PyVal.tensor ⟨[2, 2, 3], (List.range 12).map Int.ofNat⟩),
       ("reward", PyVal.tensor ⟨[2, 2], [0, 0, 0, 0]⟩),
       ("done", PyVal.tensor ⟨[2, 2], [0, 0, 0, 0]⟩),
       ("mask", PyVal.tensor ⟨[2, 2], [1, 1, 1, 1]⟩)] = true) ∧
    (∃ s1 s2, StateTensor.flatten (StateTensor.mk
        [("observation", PyVal.tensor ⟨[2, 2, 3], (List.range 12).map Int.ofNat⟩),
         ("reward", PyVal.tensor ⟨[2, 2], [0, 0, 0, 0]⟩),
         ("done", PyVal.tensor ⟨[2, 2], [0, 0, 0, 0]⟩),
         ("mask", PyVal.tensor ⟨[2, 2], [1, 1, 1, 1]⟩)] [2, 2] "cpu") = .ok s1 ∧
      s1.shape = [([2, 2] : List Nat).prod] ∧
      StateTensor.view s1 [2, 2] = .ok s2 ∧ s2.shape = [2, 2] ∧ s2.device = "cpu" ∧
      ∀ k, dictLookup s2.data k = dictLookup
        [("observation", PyVal.tensor ⟨[2, 2, 3], (List.range 12).map Int.ofNat⟩),
         ("reward", PyVal.tensor ⟨[2, 2], [0, 0, 0, 0]⟩),
         ("done", PyVal.tensor ⟨[2, 2], [0, 0, 0, 0]⟩),
         ("mask", PyVal.tensor ⟨[2, 2], [1, 1, 1, 1]⟩)] k) := by
  refine ⟨by decide, ?_⟩
  exact C3_flatten_view_roundtrip (StateTensor.mk
    [("observation", PyVal.tensor ⟨[2, 2, 3], (List.range 12).map Int.ofNat⟩),
     ("reward", PyVal.tensor ⟨[2, 2], [0, 0, 0, 0]⟩),
     ("done", PyVal.tensor ⟨[2, 2], [0, 0, 0, 0]⟩),
     ("mask", PyVal.tensor ⟨[2, 2], [1, 1, 1, 1]⟩)] [2, 2] "cpu") (by decide) (by decide)

/-- C8: `StateTensor.view(new_shape)` with mismatched element count is a
fatal error surfacing immediately (the mask field, whose shape is exactly
the batch shape, cannot be reshaped; no field is truncated or padded);
when the element counts match it succeeds and reshapes every field's
leading dimensions, preserving the trailing per-element shape and data. -/
theorem C8_view_element_count :
    ∀ (s : StateTensor) (newShape : List Nat) (mt : Tensor),
      hasCoreKeys s.data = true →
      tensorFieldsWithLead s.shape s.data = true →
      dictLookup s.data "mask" = some (PyVal.tensor mt) → mt.shape = s.shape →
      (newShape.prod ≠ s.shape.prod → ∃ e, s.view newShape = .error e) ∧
      (newShape.prod = s.shape.prod →
        ∃ r, s.view newShape = .ok r ∧ r.shape = newShape ∧ r.device = s.device ∧
          (∀ k v, dictLookup s.data k = some v → ∃ t, v = PyVal.tensor t ∧
             dictLookup r.data k =
               some (PyVal.tensor ⟨newShape ++ t.shape.drop s.shape.length, t.data⟩)) ∧
          (∀ k, dictLookup s.data k = none → dictLookup r.data k = none)) := by
  intro s newShape mt hcore hfields hmk hmts
  constructor
  · intro hne
    have hvnone : Tensor.view mt (newShape ++ mt.shape.drop s.shape.length) = none := by
      unfold Tensor.view
      rw [if_neg ?hc]
      case hc =>
        rw [hmts, List.drop_length, List.append_nil]
        exact hne
    have hf : ∀ v1, pyViewTrailing s.shape.length newShape (PyVal.tensor mt) ≠ .ok v1 := by
      intro v1 hcontra
      unfold pyViewTrailing at hcontra
      dsimp only [] at hcontra
      rw [hvnone] at hcontra
      cases hcontra
    obtain ⟨e, he⟩ := mapValsE_isError (pyViewTrailing s.shape.length newShape) s.data
      "mask" (PyVal.tensor mt) (dictLookup_mem s.data "mask" (PyVal.tensor mt) hmk) hf
    refine ⟨e, ?_⟩
    unfold StateTensor.view
    rw [he]
  · intro heq
    have hall : ∀ p ∈ s.data, ∃ v1, pyViewTrailing s.shape.length newShape p.2 = .ok v1 := by
      intro p hp
      obtain ⟨t, hv, hts⟩ := tensorFieldsWithLead_spec s.shape s.data hfields p hp
      refine ⟨.tensor ⟨newShape ++ t.shape.drop s.shape.length, t.data⟩, ?_⟩
      rw [hv]
      refine pyViewTrailing_ok t s.shape.length newShape ?_
      conv_rhs => rw [hts]
      simp [List.prod_append, heq]
    obtain ⟨d1, hd1⟩ := mapValsE_ok_of_all _ s.data hall
    have hcore1 := hasCoreKeys_mapValsE _ s.data d1 hd1 hcore
    obtain ⟨h1, h2, h3, h4⟩ := hasCoreKeys_spec d1 hcore1
    refine ⟨⟨d1, newShape, s.device⟩, ?_, rfl, rfl, ?_, ?_⟩
    · unfold StateTensor.view
      rw [hd1]
      exact stateTensorInit_complete d1 newShape s.device h1 h2 h3 h4
    · intro k v hk
      obtain ⟨t, hv, hts⟩ := tensorFieldsWithLead_spec s.shape s.data hfields (k, v)
        (dictLookup_mem s.data k v hk)
      simp only at hv
      subst hv
      obtain ⟨v1, hfv, hlk⟩ := mapValsE_lookup_some _ s.data d1 hd1 k _ hk
      rw [pyViewTrailing_ok t s.shape.length newShape
        (by conv_rhs => rw [hts]
            simp [List.prod_append, heq])] at hfv
      injection hfv with hv1
      subst hv1
      exact ⟨t, rfl, hlk⟩
    · intro k hk
      exact mapValsE_lookup_none _ s.data d1 hd1 k hk

/-- witness for C8: a `[2]`-shaped StateTensor rejects `view([3])` and
accepts `view([1, 2])`. -/
theorem C8_view_element_count_witness :
    (hasCoreKeys [("observation", PyVal.tensor ⟨[2, 3], [1, 2, 3, 4, 5, 6]⟩),
       ("reward", PyVal.tensor ⟨[2], [0, 0]⟩), ("done", PyVal.tensor ⟨[2], [0, 0]⟩),
       ("mask", PyVal.tensor ⟨[2], [1, 1]⟩)] = true) ∧
    (∃ e, StateTensor.view (StateTensor.mk
        [("observation", PyVal.tensor ⟨[2, 3], [1, 2, 3, 4, 5, 6]⟩),
         ("reward", PyVal.tensor ⟨[2], [0, 0]⟩), ("done", PyVal.tensor ⟨[2], [0, 0]⟩),
         ("mask", PyVal.tensor ⟨[2], [1, 1]⟩)] [2] "cpu") [3] = .error e) ∧
    (∃ r, StateTensor.view (StateTensor.mk
        [("observation", PyVal.tensor ⟨[2, 3], [1, 2, 3, 4, 5, 6]⟩),
         ("reward", PyVal.tensor ⟨[2], [0, 0]⟩), ("done", PyVal.tensor ⟨[2], [0, 0]⟩),
         ("mask", PyVal.tensor ⟨[2], [1, 1]⟩)] [2] "cpu") [1, 2] = .ok r ∧
      r.shape = [1, 2] ∧ r.device = "cpu" ∧
      (∀ k v, dictLookup [("observation", PyVal.tensor ⟨[2, 3], [1, 2, 3, 4, 5, 6]⟩),
         ("reward", PyVal.tensor ⟨[2], [0, 0]⟩), ("done", PyVal.tensor ⟨[2], [0, 0]⟩),
         ("mask", PyVal.tensor ⟨[2], [1, 1]⟩)] k = some v → ∃ t, v = PyVal.tensor t ∧
         dictLookup r.data k =
           some (PyVal.tensor ⟨[1, 2] ++ t.shape.drop ([2] : List Nat).length, t.data⟩)) ∧
      (∀ k, dictLookup [("observation", PyVal.tensor ⟨[2, 3], [1, 2, 3, 4, 5, 6]⟩),
         ("reward", PyVal.tensor ⟨[2], [0, 0]⟩), ("done", PyVal.tensor ⟨[2], [0, 0]⟩),
         ("mask", PyVal.tensor ⟨[2], [1, 1]⟩)] k = none → dictLookup r.data k = none)) := by
  refine ⟨by decide, ?_, ?_⟩
  · exact (C8_view_element_count (StateTensor.mk
      [("observation", PyVal.tensor ⟨[2, 3], [1, 2, 3, 4, 5, 6]⟩),
       ("reward", PyVal.tensor ⟨[2], [0, 0]⟩), ("done", PyVal.tensor ⟨[2], [0, 0]⟩),
       ("mask", PyVal.tensor ⟨[2], [1, 1]⟩)] [2] "cpu") [3] ⟨[2], [1, 1]⟩ (by decide)
      (by decide) (by decide) (by decide)).1 (by decide)
  · exact (C8_view_element_count (StateTensor.mk
      [("observation", PyVal.tensor ⟨[2, 3], [1, 2, 3, 4, 5, 6]⟩),
       ("reward", PyVal.tensor ⟨[2], [0, 0]⟩), ("done", PyVal.tensor ⟨[2], [0, 0]⟩),
       ("mask", PyVal.tensor ⟨[2], [1, 1]⟩)] [2] "cpu") [1, 2] ⟨[2], [1, 1]⟩ (by decide)
      (by decide) (by decide) (by decide)).2 (by decide)

lemma stateTensorMaskStage_ok (d2 : PyDict) (shape : List Nat) (dev : String)
    (hdn : ∃ t : Tensor, dictLookup d2 "done" = some (.tensor t)) :
    ∃ st, stateTensorMaskStage d2 shape dev = .ok st := by
  unfold stateTensorMaskStage
  by_cases hmk : dictContains d2 "mask" = true
  · rw [if_pos hmk]
    exact ⟨_, rfl⟩
  · rw [if_neg hmk]
    obtain ⟨t, ht⟩ := hdn
    rw [ht]
    exact ⟨_, rfl⟩

lemma stateTensorDoneStage_ok (d1 : PyDict) (shape : List Nat) (dev : String)
    (hdn : ∀ v, dictLookup d1 "done" = some v → ∃ t, v = PyVal.tensor t) :
    ∃ st, stateTensorDoneStage d1 shape dev = .ok st := by
  unfold stateTensorDoneStage
  by_cases hd : dictContains d1 "done" = true
  · rw [if_pos hd]
    obtain ⟨v, hv⟩ := (dictContains_iff d1 "done").mp hd
    obtain ⟨t, rfl⟩ := hdn v hv
    exact stateTensorMaskStage_ok d1 shape dev ⟨t, hv⟩
  · rw [if_neg hd]
    exact stateTensorMaskStage_ok _ shape dev
      ⟨_, dictLookup_dictInsert_self d1 "done" _⟩

lemma stateTensorAfterObs_ok (d : PyDict) (shape : List Nat) (dev : String)
    (hdn : ∀ v, dictLookup d "done" = some v → ∃ t, v = PyVal.tensor t) :
    ∃ st, stateTensorAfterObs d shape dev = .ok st := by
  unfold stateTensorAfterObs
  by_cases hr : dictContains d "reward" = true
  · rw [if_pos hr]
    exact stateTensorDoneStage_ok d shape dev hdn
  · rw [if_neg hr]
    refine stateTensorDoneStage_ok _ shape dev ?_
    intro v hv
    rw [dictLookup_dictInsert_of_ne d "reward" "done" _ (by decide)] at hv
    exact hdn v hv

lemma filterMapVals_val_tensor (f : String → PyVal → Option PyVal)
    (hf : ∀ k v v1, f k v = some v1 → ∃ t, v1 = PyVal.tensor t) (d : PyDict)
    (k : String) (v : PyVal) (h : dictLookup (filterMapVals f d) k = some v) :
    ∃ t, v = PyVal.tensor t := by
  induction d with
  | nil => simp [filterMapVals, dictLookup] at h
  | cons p rest ih =>
    obtain ⟨k1, w⟩ := p
    simp only [filterMapVals] at h
    cases hfw : f k1 w with
    | some w1 =>
      rw [hfw] at h
      simp only [dictLookup] at h
      by_cases h1 : k = k1
      · rw [if_pos h1] at h
        injection h with h2
        subst h2
        exact hf k1 w w1 hfw
      · rw [if_neg h1] at h
        exact ih h
    | none =>
      rw [hfw] at h
      exact ih h

/-- constructing a StateTensor from a best-effort filtered dict whose
values are all tensors and which still has `observation`: construction
succeeds, all four core keys are present in the result (gathered or
re-defaulted), and non-core lookups pass through the filtered dict. -/
lemma init_filtered_ok (D : PyDict) (shape : List Nat) (dev : String)
    (hvt : ∀ k v, dictLookup D k = some v → ∃ t, v = PyVal.tensor t)
    (hobs : dictContains D "observation" = true) :
    ∃ r, StateTensor.init (.dict D) shape dev [] = .ok r ∧
      dictContains r.data "observation" = true ∧ dictContains r.data "reward" = true ∧
      dictContains r.data "done" = true ∧ dictContains r.data "mask" = true ∧
      (∀ k, k ≠ "reward" → k ≠ "done" → k ≠ "mask" →
         dictLookup r.data k = dictLookup D k) := by
  obtain ⟨st, hst⟩ := stateTensorAfterObs_ok D shape dev (fun v hv => hvt "done" v hv)
  have hinit : StateTensor.init (.dict D) shape dev [] = .ok st := by
    rw [stateTensorInit_unfold, initBase_dict_nil, if_neg (by simp [hobs])]
    exact hst
  obtain ⟨_, _, hother, hrew, hdone, hmt, hmf⟩ := stateTensorAfterObs_spec D shape dev st hst
  refine ⟨st, hinit, ?_, ?_, ?_, ?_, hother⟩
  · rw [dictContains, hother "observation" (by decide) (by decide) (by decide)]
    exact hobs
  · rw [dictContains, hrew]
    by_cases hcr : dictContains D "reward" = true
    · rw [if_pos hcr]
      exact hcr
    · rw [if_neg hcr]
      rfl
  · rw [dictContains, hdone]
    by_cases hcd : dictContains D "done" = true
    · rw [if_pos hcd]
      exact hcd
    · rw [if_neg hcd]
      rfl
  · by_cases hcm : dictContains D "mask" = true
    · rw [dictContains, hmt hcm]
      exact hcm
    · obtain ⟨dv, m, _, _, hm⟩ := hmf (by simpa [Bool.not_eq_true] using hcm)
      rw [dictContains, hm]
      rfl

/-- C6: when a StateTensor is indexed by a boolean index tensor, and when
a StateTensor is aggregated by `State.from_list`, fields that cannot be
coherently gathered/combined are silently dropped (the operation still
succeeds) while the four core keys `observation`, `reward`, `done`,
`mask` are always present in the result (gathering of `mask` and
`observation` is assumed to succeed: a failing mask raises before the
loop, and a missing observation makes the constructor raise rather than
return a result). -/
theorem C6_best_effort_fields :
    (∀ (s : StateTensor) (key mt ot mg og : Tensor),
       nodupKeys s.data →
       dictLookup s.data "mask" = some (.tensor mt) →
       Tensor.maskGather mt key = some mg →
       dictLookup s.data "observation" = some (.tensor ot) →
       Tensor.maskGather ot key = some og →
       ∃ r, s.getTensor key = .ok r ∧
         dictContains r.data "observation" = true ∧ dictContains r.data "reward" = true ∧
         dictContains r.data "done" = true ∧ dictContains r.data "mask" = true ∧
         (∀ k v, dictLookup s.data k = some v → pyGetIdx key v = none →
            k ≠ "reward" → k ≠ "done" → k ≠ "mask" →
            dictLookup r.data k = none)) ∧
    (∀ (s0 : State) (rest : List State) (ov : PyVal) (obst : Tensor),
       nodupKeys s0.data →
       dictLookup s0.data "observation" = some ov →
       combineKey (s0 :: rest) ov "observation" = some obst →
       ∃ r, State.from_list (s0 :: rest) = .ok r ∧
         dictContains r.data "observation" = true ∧ dictContains r.data "reward" = true ∧
         dictContains r.data "done" = true ∧ dictContains r.data "mask" = true ∧
         (∀ k v, dictLookup s0.data k = some v →
            combineKey (s0 :: rest) v k = none →
            k ≠ "reward" → k ≠ "done" → k ≠ "mask" →
            dictLookup r.data k = none)) := by
  constructor
  · intro s key mt ot mg og hnd hmk hgm hobs hgo
    have hgs : StateTensor.getStr s "mask" = .tensor mt := by
      unfold StateTensor.getStr
      rw [hmk]
    have heq : s.getTensor key = StateTensor.init
        (.dict (filterMapVals (fun _ v => pyGetIdx key v) s.data)) mg.shape s.device [] := by
      unfold StateTensor.getTensor
      rw [hgs]
      dsimp only []
      rw [hgm]
    have hvt : ∀ k v, dictLookup (filterMapVals (fun _ v => pyGetIdx key v) s.data) k =
        some v → ∃ t, v = PyVal.tensor t := by
      refine filterMapVals_val_tensor _ ?_ s.data
      intro k v v1 h
      cases v with
      | tensor t =>
        unfold pyGetIdx at h
        dsimp only [] at h
        cases hg : Tensor.maskGather t key with
        | none => rw [hg] at h; cases h
        | some g =>
          rw [hg] at h
          injection h with h1
          exact ⟨g, h1.symm⟩
      | num x => cases h
      | boolv b => cases h
      | pynone => cases h
      | obj n => cases h
    have hobsD : dictContains (filterMapVals (fun _ v => pyGetIdx key v) s.data)
        "observation" = true := by
      refine (dictContains_iff _ _).mpr ⟨.tensor og, ?_⟩
      refine filterMapVals_lookup_some _ s.data "observation" (.tensor ot) (.tensor og)
        hobs ?_
      unfold pyGetIdx
      dsimp only []
      rw [hgo]
      rfl
    obtain ⟨r, hinit, hc1, hc2, hc3, hc4, hframe⟩ :=
      init_filtered_ok (filterMapVals (fun _ v => pyGetIdx key v) s.data) mg.shape
        s.device hvt hobsD
    refine ⟨r, by rw [heq]; exact hinit, hc1, hc2, hc3, hc4, ?_⟩
    intro k v hk hfail hk1 hk2 hk3
    rw [hframe k hk1 hk2 hk3]
    exact filterMapVals_lookup_drop _ s.data k v hnd hk hfail
  · intro s0 rest ov obst hnd hobs hcomb
    have heq : State.from_list (s0 :: rest) = StateTensor.init
        (.dict (filterMapVals (fun k v => (combineKey (s0 :: rest) v k).map PyVal.tensor)
          s0.data)) [(s0 :: rest).length] s0.device [] := rfl
    have hvt : ∀ k v, dictLookup (filterMapVals
        (fun k v => (combineKey (s0 :: rest) v k).map PyVal.tensor) s0.data) k = some v →
        ∃ t, v = PyVal.tensor t := by
      refine filterMapVals_val_tensor _ ?_ s0.data
      intro k v v1 h
      cases hc : combineKey (s0 :: rest) v k with
      | none => rw [hc] at h; cases h
      | some T =>
        rw [hc] at h
        injection h with h1
        exact ⟨T, h1.symm⟩
    have hobsD : dictContains (filterMapVals
        (fun k v => (combineKey (s0 :: rest) v k).map PyVal.tensor) s0.data)
        "observation" = true := by
      refine (dictContains_iff _ _).mpr ⟨.tensor obst, ?_⟩
      refine filterMapVals_lookup_some _ s0.data "observation" ov (.tensor obst) hobs ?_
      rw [hcomb]
      rfl
    obtain ⟨r, hinit, hc1, hc2, hc3, hc4, hframe⟩ :=
      init_filtered_ok _ [(s0 :: rest).length] s0.device hvt hobsD
    refine ⟨r, by rw [heq]; exact hinit, hc1, hc2, hc3, hc4, ?_⟩
    intro k v hk hfail hk1 hk2 hk3
    rw [hframe k hk1 hk2 hk3]
    refine filterMapVals_lookup_drop _ s0.data k v hnd hk ?_
    rw [hfail]
    rfl

/-- witness for C6: a boolean-mask index that drops an incompatible side
field and an object field but keeps all core fields, and a `from_list`
over two States where an `info` field present only in the first is
dropped while the core fields survive. -/
theorem C6_best_effort_fields_witness :
    (nodupKeys [("observation", PyVal.tensor ⟨[3], [7, 8, 9]⟩), ("info", PyVal.obj 5),
       ("side", PyVal.tensor ⟨[2], [1, 2]⟩), ("reward", PyVal.tensor ⟨[3], [0, 0, 0]⟩),
       ("done", PyVal.tensor ⟨[3], [0, 0, 0]⟩), ("mask", PyVal.tensor ⟨[3], [1, 1, 1]⟩)] ∧
     ∃ r, StateTensor.getTensor (StateTensor.mk
         [("observation", PyVal.tensor ⟨[3], [7, 8, 9]⟩), ("info", PyVal.obj 5),
          ("side", PyVal.tensor ⟨[2], [1, 2]⟩), ("reward", PyVal.tensor ⟨[3], [0, 0, 0]⟩),
          ("done", PyVal.tensor ⟨[3], [0, 0, 0]⟩), ("mask", PyVal.tensor ⟨[3], [1, 1, 1]⟩)]
         [3] "cpu") ⟨[3], [1, 0, 1]⟩ = .ok r ∧
       dictContains r.data "observation" = true ∧ dictContains r.data "reward" = true ∧
       dictContains r.data "done" = true ∧ dictContains r.data "mask" = true ∧
       (∀ k v, dictLookup [("observation", PyVal.tensor ⟨[3], [7, 8, 9]⟩),
          ("info", PyVal.obj 5), ("side", PyVal.tensor ⟨[2], [1, 2]⟩),
          ("reward", PyVal.tensor ⟨[3], [0, 0, 0]⟩), ("done", PyVal.tensor ⟨[3], [0, 0, 0]⟩),
          ("mask", PyVal.tensor ⟨[3], [1, 1, 1]⟩)] k = some v →
          pyGetIdx ⟨[3], [1, 0, 1]⟩ v = none →
          k ≠ "reward" → k ≠ "done" → k ≠ "mask" → dictLookup r.data k = none)) ∧
    (∃ r, State.from_list
        [State.mk [("observation", PyVal.tensor ⟨[2], [1, 2]⟩), ("reward", PyVal.num 0),
           ("done", PyVal.boolv false), ("mask", PyVal.num 1), ("info", PyVal.obj 1)] "cpu",
         State.mk [("observation", PyVal.tensor ⟨[2], [3, 4]⟩), ("reward", PyVal.num 5),
           ("done", PyVal.boolv true), ("mask", PyVal.num 0)] "cpu"] = .ok r ∧
      dictContains r.data "observation" = true ∧ dictContains r.data "reward" = true ∧
      dictContains r.data "done" = true ∧ dictContains r.data "mask" = true ∧
      (∀ k v, dictLookup [("observation", PyVal.tensor ⟨[2], [1, 2]⟩),
         ("reward", PyVal.num 0), ("done", PyVal.boolv false), ("mask", PyVal.num 1),
         ("info", PyVal.obj 1)] k = some v →
         combineKey [State.mk [("observation", PyVal.tensor ⟨[2], [1, 2]⟩),
             ("reward", PyVal.num 0), ("done", PyVal.boolv false), ("mask", PyVal.num 1),
             ("info", PyVal.obj 1)] "cpu",
           State.mk [("observation", PyVal.tensor ⟨[2], [3, 4]⟩), ("reward", PyVal.num 5),
             ("done", PyVal.boolv true), ("mask", PyVal.num 0)] "cpu"] v k = none →
         k ≠ "reward" → k ≠ "done" → k ≠ "mask" → dictLookup r.data k = none)) := by
  refine ⟨⟨by decide, ?_⟩, ?_⟩
  · exact C6_best_effort_fields.1 (StateTensor.mk
      [("observation", PyVal.tensor ⟨[3], [7, 8, 9]⟩), ("info", PyVal.obj 5),
       ("side", PyVal.tensor ⟨[2], [1, 2]⟩), ("reward", PyVal.tensor ⟨[3], [0, 0, 0]⟩),
       ("done", PyVal.tensor ⟨[3], [0, 0, 0]⟩), ("mask", PyVal.tensor ⟨[3], [1, 1, 1]⟩)]
      [3] "cpu") ⟨[3], [1, 0, 1]⟩ ⟨[3], [1, 1, 1]⟩ ⟨[3], [7, 8, 9]⟩ ⟨[2], [1, 1]⟩
      ⟨[2], [7, 9]⟩ (by decide) (by decide) (by decide) (by decide) (by decide)
  · exact C6_best_effort_fields.2
      (State.mk [("observation", PyVal.tensor ⟨[2], [1, 2]⟩), ("reward", PyVal.num 0),
        ("done", PyVal.boolv false), ("mask", PyVal.num 1), ("info", PyVal.obj 1)] "cpu")
      [State.mk [("observation", PyVal.tensor ⟨[2], [3, 4]⟩), ("reward", PyVal.num 5),
        ("done", PyVal.boolv true), ("mask", PyVal.num 0)] "cpu"]
      (PyVal.tensor ⟨[2], [1, 2]⟩) ⟨[2, 2], [1, 2, 3, 4]⟩ (by decide) (by decide)
      (by decide)

/-- C7 counterexample: the claim fails on StateTensor.  For the
legitimately constructed batch of shape `[2]` with `done = [True, False]`
(hence `mask = [0, 1]`), applying the mask to the per-slot scalar output
tensor `[3, 4]` of shape `[2]` (zero trailing feature dimensions) does
not return the input multiplied by the mask (which would be `[0, 4]` of
shape `[2]`): because `apply_mask` multiplies by `mask.unsqueeze(-1)` of
shape `[2, 1]`, broadcasting misaligns and yields a `[2, 2]`-shaped
tensor, so the terminated slot is not zeroed out. -/
theorem C7_apply_mask_counterexample :
    StateTensor.init (.dict [("observation", PyVal.tensor ⟨[2], [5, 6]⟩),
        ("done", PyVal.tensor ⟨[2], [1, 0]⟩)]) [2] "cpu" [] =
      .ok (StateTensor.mk [("observation", PyVal.tensor ⟨[2], [5, 6]⟩),
        ("done", PyVal.tensor ⟨[2], [1, 0]⟩), ("reward", PyVal.tensor ⟨[2], [0, 0]⟩),
        ("mask", PyVal.tensor ⟨[2], [0, 1]⟩)] [2] "cpu") ∧
    (StateTensor.apply_mask (StateTensor.mk [("observation", PyVal.tensor ⟨[2], [5, 6]⟩),
        ("done", PyVal.tensor ⟨[2], [1, 0]⟩), ("reward", PyVal.tensor ⟨[2], [0, 0]⟩),
        ("mask", PyVal.tensor ⟨[2], [0, 1]⟩)] [2] "cpu")
      ⟨[2], [3, 4]⟩).toOption = some ⟨[2, 2], [0, 0, 3, 4]⟩ ∧
    (StateTensor.apply_mask (StateTensor.mk [("observation", PyVal.tensor ⟨[2], [5, 6]⟩),
        ("done", PyVal.tensor ⟨[2], [1, 0]⟩), ("reward", PyVal.tensor ⟨[2], [0, 0]⟩),
        ("mask", PyVal.tensor ⟨[2], [0, 1]⟩)] [2] "cpu")
      ⟨[2], [3, 4]⟩).toOption ≠ some ⟨[2], [0, 4]⟩ ∧
    ([2, 2] : List Nat) ≠ (⟨[2], [3, 4]⟩ : Tensor).shape := by
  exact ⟨rfl, by decide, by decide, by decide⟩

/-- C7 (amended): `State.apply_mask` multiplies the tensor elementwise by
the scalar mask (any trailing rank, a zero mask zeroes everything);
`StateTensor.apply_mask` computes `tensor * mask.unsqueeze(-1)`, which
equals the claimed per-slot broadcast masking exactly when the tensor has
exactly one trailing feature dimension beyond the mask shape: then the
result keeps the input shape, each entry is the input entry times its
slot's mask, and a terminated slot (mask 0) is zeroed.  (For other
trailing ranks the operation raises or misbroadcasts, per the
counterexample.) -/
theorem C7_apply_mask_amended :
    (∀ (s : State) (x : Scalar) (t : Tensor),
       dictLookup s.data "mask" = some (.num x) →
       s.apply_mask t = .ok (t.scale x) ∧ (t.scale x).shape = t.shape ∧
       (∀ n, getI (t.scale x).data n = getI t.data n * x)) ∧
    (∀ (s : StateTensor) (m t : Tensor) (S : List Nat) (d : Nat),
       dictLookup s.data "mask" = some (.tensor m) →
       m.shape = S → t.shape = S ++ [d] →
       ∃ r, s.apply_mask t = .ok r ∧ r.shape = t.shape ∧
         (∀ is j, validIdx S is = true → j < d →
            r.at_ (is ++ [j]) = t.at_ (is ++ [j]) * m.at_ is) ∧
         (∀ is j, validIdx S is = true → j < d → m.at_ is = 0 →
            r.at_ (is ++ [j]) = 0)) := by
  constructor
  · intro s x t hmk
    refine ⟨?_, rfl, fun n => getI_map_mul t.data x n⟩
    unfold State.apply_mask
    rw [hmk]
  · intro s m t S d hmk hms hts
    obtain ⟨r, hmul, hshape, hpt⟩ := Tensor.mul_unsq t m S d hts hms
    refine ⟨r, ?_, hshape, hpt, ?_⟩
    · unfold StateTensor.apply_mask
      rw [hmk]
      dsimp only []
      rw [hmul]
    · intro is j hv hj hz
      rw [hpt is j hv hj, hz, mul_zero]

/-- witness for C7 (amended): a State with scalar mask `0` zeroes a
`[2, 2]` tensor, and a StateTensor of batch shape `[2]` with mask
`[0, 1]` masks a `[2, 3]` tensor per slot. -/
theorem C7_apply_mask_amended_witness :
    (dictLookup [("observation", PyVal.num 7), ("mask", PyVal.num 0)] "mask" =
       some (PyVal.num 0) ∧
     State.apply_mask (State.mk [("observation", PyVal.num 7), ("mask", PyVal.num 0)] "cpu")
         ⟨[2, 2], [1, 2, 3, 4]⟩ = .ok (Tensor.scale ⟨[2, 2], [1, 2, 3, 4]⟩ 0) ∧
     (Tensor.scale ⟨[2, 2], [1, 2, 3, 4]⟩ 0).shape = ([2, 2] : List Nat) ∧
     (∀ n, getI (Tensor.scale ⟨[2, 2], [1, 2, 3, 4]⟩ 0).data n =
        getI ([1, 2, 3, 4] : List Scalar) n * 0)) ∧
    (∃ r, StateTensor.apply_mask (StateTensor.mk
        [("observation", PyVal.tensor ⟨[2], [5, 6]⟩),
         ("mask", PyVal.tensor ⟨[2], [0, 1]⟩)] [2] "cpu") ⟨[2, 3], [1, 2, 3, 4, 5, 6]⟩ =
        .ok r ∧ r.shape = ([2, 3] : List Nat) ∧
      (∀ is j, validIdx [2] is = true → j < 3 →
         r.at_ (is ++ [j]) = Tensor.at_ ⟨[2, 3], [1, 2, 3, 4, 5, 6]⟩ (is ++ [j]) *
           Tensor.at_ ⟨[2], [0, 1]⟩ is) ∧
      (∀ is j, validIdx [2] is = true → j < 3 → Tensor.at_ ⟨[2], [0, 1]⟩ is = 0 →
         r.at_ (is ++ [j]) = 0)) := by
  constructor
  · have h := C7_apply_mask_amended.1
      (State.mk [("observation", PyVal.num 7), ("mask", PyVal.num 0)] "cpu") 0
      ⟨[2, 2], [1, 2, 3, 4]⟩ (by decide)
    exact ⟨by decide, h.1, h.2.1, h.2.2⟩
  · exact C7_apply_mask_amended.2 (StateTensor.mk
      [("observation", PyVal.tensor ⟨[2], [5, 6]⟩),
       ("mask", PyVal.tensor ⟨[2], [0, 1]⟩)] [2] "cpu") ⟨[2], [0, 1]⟩
      ⟨[2, 3], [1, 2, 3, 4, 5, 6]⟩ [2] 3 (by decide) (by decide) (by decide)
